import Mathlib

/-!
Verification development for the scafkit repository core:
the document store (src/db/store.ts, src/db/migrations.ts, src/db/schemas.ts),
the git source resolver (src/utils/git-source.ts) and the template fetch
engine (src/core/template-service.ts).

Decoded JSON values are modelled by `JsonV`; JavaScript objects are
association lists with first-match lookup, numbers are rationals.
`randomUUID()` and `new Date().toISOString()` are modelled as explicit
string parameters threaded through the functions that call them.
-/

/-- A decoded JSON value (result of `JSON.parse` / lowdb read). -/
inductive JsonV where
  | null : JsonV
  | bool (b : Bool) : JsonV
  | num (q : Rat) : JsonV
  | str (s : String) : JsonV
  | arr (items : List JsonV) : JsonV
  | obj (fields : List (String × JsonV)) : JsonV

/-- JavaScript property access `x[k]` for a non-index key: `none` models
`undefined` (missing key, or access on a non-object). -/
def JsonV.getField : JsonV → String → Option JsonV
  | .obj fields, k => fields.lookup k
  | _, _ => none

/-- `variables` entry of a template record (schemas.ts `templateVariableSchema`). -/
structure TemplateVariable where
  key : String
  required : Bool
  defaultValue : Option String
  desc : Option String
deriving DecidableEq, Repr

/-- A template record in the current schema (schemas.ts `templateRecordSchema`). -/
structure TemplateRecord where
  id : String
  name : String
  description : Option String
  source : String
  branch : Option String
  subPath : Option String
  /-- Source field name: `variables` (a reserved word in Lean). -/
  varDefs : Option (List TemplateVariable)
  createdAt : String
  updatedAt : String
deriving DecidableEq, Repr

/-- Legacy flat AI configuration (schemas.ts `aiConfigSchema`).
`timeoutMs` is stored as the integer numerator after the zod
`int().positive()` check. -/
structure AiConfig where
  baseURL : String
  apiKey : String
  model : String
  timeoutMs : Int
deriving DecidableEq, Repr

/-- An AI profile (schemas.ts `aiProfileSchema` = `aiConfigSchema.extend`). -/
structure AiProfile where
  id : String
  name : String
  baseURL : String
  apiKey : String
  model : String
  timeoutMs : Int
  createdAt : String
  updatedAt : String
deriving DecidableEq, Repr

/-- AI settings (schemas.ts `aiSettingsSchema`). -/
structure AiSettings where
  activeProfileId : Option String
  profiles : List AiProfile
deriving DecidableEq, Repr

/-- The root document (schemas.ts `appDbSchema`, types.ts `AppDB`). -/
structure AppDB where
  version : Int
  templates : List TemplateRecord
  ai : AiSettings
deriving DecidableEq, Repr

/-- migrations.ts `CURRENT_DB_VERSION`. -/
def CURRENT_DB_VERSION : Int := 2

/-- `z.string().min(1)` on a possibly-absent field. -/
def parseStr1 : Option JsonV → Option String
  | some (.str s) => if 1 ≤ s.length then some s else none
  | _ => none

/-- `z.string().optional()` on a possibly-absent field. -/
def parseOptStr : Option JsonV → Option (Option String)
  | none => some none
  | some (.str s) => some (some s)
  | some _ => none

/-- `z.boolean()` on a possibly-absent field. -/
def parseBool : Option JsonV → Option Bool
  | some (.bool b) => some b
  | _ => none

/-- `z.number().int().positive()` on a possibly-absent field. -/
def parsePosInt : Option JsonV → Option Int
  | some (.num q) => if q.den = 1 ∧ 0 < q then some q.num else none
  | _ => none

/-- `templateVariableSchema.safeParse`. -/
def parseTemplateVariable (j : JsonV) : Option TemplateVariable :=
  match j with
  | .obj fields =>
    match parseStr1 (fields.lookup "key"), parseBool (fields.lookup "required"),
          parseOptStr (fields.lookup "defaultValue"), parseOptStr (fields.lookup "desc") with
    | some key, some req, some dv, some d => some ⟨key, req, dv, d⟩
    | _, _, _, _ => none
  | _ => none

/-- `z.array(templateVariableSchema)`: fails if any element fails. -/
def parseVariableList : List JsonV → Option (List TemplateVariable)
  | [] => some []
  | j :: rest =>
    match parseTemplateVariable j, parseVariableList rest with
    | some v, some vs => some (v :: vs)
    | _, _ => none

/-- `z.array(templateVariableSchema).optional()`: a present non-array fails,
a present array fails if any element fails. -/
def parseOptVariables : Option JsonV → Option (Option (List TemplateVariable))
  | none => some none
  | some (.arr items) => (parseVariableList items).map some
  | some _ => none

/-- `templateRecordSchema.safeParse` (current schema: no `sourceType` field;
unknown keys are stripped). -/
def parseTemplateRecord (j : JsonV) : Option TemplateRecord :=
  match j with
  | .obj fields =>
    match parseStr1 (fields.lookup "id"), parseStr1 (fields.lookup "name"),
          parseOptStr (fields.lookup "description"), parseStr1 (fields.lookup "source"),
          parseOptStr (fields.lookup "branch"), parseOptStr (fields.lookup "subPath"),
          parseOptVariables (fields.lookup "variables"),
          parseStr1 (fields.lookup "createdAt"), parseStr1 (fields.lookup "updatedAt") with
    | some id, some name, some desc, some src, some br, some sp, some vars, some ca, some ua =>
        some ⟨id, name, desc, src, br, sp, vars, ca, ua⟩
    | _, _, _, _, _, _, _, _, _ => none
  | _ => none

/-- `aiConfigSchema.safeParse`. -/
def parseAiConfig (j : JsonV) : Option AiConfig :=
  match j with
  | .obj fields =>
    match parseStr1 (fields.lookup "baseURL"), parseStr1 (fields.lookup "apiKey"),
          parseStr1 (fields.lookup "model"), parsePosInt (fields.lookup "timeoutMs") with
    | some b, some k, some m, some t => some ⟨b, k, m, t⟩
    | _, _, _, _ => none
  | _ => none

/-- `aiProfileSchema.safeParse`. -/
def parseAiProfile (j : JsonV) : Option AiProfile :=
  match j with
  | .obj fields =>
    match parseStr1 (fields.lookup "id"), parseStr1 (fields.lookup "name"),
          parseStr1 (fields.lookup "baseURL"), parseStr1 (fields.lookup "apiKey"),
          parseStr1 (fields.lookup "model"), parsePosInt (fields.lookup "timeoutMs"),
          parseStr1 (fields.lookup "createdAt"), parseStr1 (fields.lookup "updatedAt") with
    | some i, some n, some b, some k, some m, some t, some ca, some ua =>
        some ⟨i, n, b, k, m, t, ca, ua⟩
    | _, _, _, _, _, _, _, _ => none
  | _ => none

/-- Re-validation of an already-typed `TemplateVariable` by
`templateVariableSchema` (used for round-trip reasoning). -/
def TemplateVariable.validB (v : TemplateVariable) : Bool :=
  decide (1 ≤ v.key.length)

/-- Re-validation of an already-typed `TemplateRecord` by
`templateRecordSchema`. -/
def TemplateRecord.validB (r : TemplateRecord) : Bool :=
  decide (1 ≤ r.id.length) && decide (1 ≤ r.name.length) &&
  decide (1 ≤ r.source.length) && decide (1 ≤ r.createdAt.length) &&
  decide (1 ≤ r.updatedAt.length) &&
  (match r.varDefs with
   | none => true
   | some vs => vs.all TemplateVariable.validB)

/-- Re-validation of an already-typed `AiProfile` by `aiProfileSchema`. -/
def AiProfile.validB (p : AiProfile) : Bool :=
  decide (1 ≤ p.id.length) && decide (1 ≤ p.name.length) &&
  decide (1 ≤ p.baseURL.length) && decide (1 ≤ p.apiKey.length) &&
  decide (1 ≤ p.model.length) && decide (0 < p.timeoutMs) &&
  decide (1 ≤ p.createdAt.length) && decide (1 ≤ p.updatedAt.length)

/-- Re-validation of already-typed `AiSettings` by `aiSettingsSchema`
(`activeProfileId` is `z.string().min(1).nullable()`). -/
def AiSettings.validB (s : AiSettings) : Bool :=
  (match s.activeProfileId with
   | none => true
   | some i => decide (1 ≤ i.length)) &&
  s.profiles.all AiProfile.validB

/-- Re-validation of an already-typed `AppDB` by `appDbSchema`
(`version` is `z.number().int().nonnegative()`). -/
def AppDB.validB (d : AppDB) : Bool :=
  decide (0 ≤ d.version) && d.templates.all TemplateRecord.validB && d.ai.validB

/-- migrations.ts `createDefaultDb`. -/
def createDefaultDb : AppDB :=
  ⟨CURRENT_DB_VERSION, [], ⟨none, []⟩⟩

/-- The legacy-entry test in migrations.ts `sanitizeTemplateList`:
`typeof item === "object" && item !== null && "sourceType" in item &&
item.sourceType === "local"`. -/
def isLegacyLocalEntry (j : JsonV) : Bool :=
  match j with
  | .obj fields =>
    match fields.lookup "sourceType" with
    | some (.str s) => s == "local"
    | _ => false
  | _ => false

/-- migrations.ts `sanitizeTemplateList`. -/
def sanitizeTemplateList (input : Option JsonV) : List TemplateRecord :=
  match input with
  | some (.arr items) =>
      items.filterMap fun item =>
        if isLegacyLocalEntry item then none else parseTemplateRecord item
  | _ => []

/-- JavaScript truthiness of a possibly-`undefined` decoded value
(`NaN` is not producible by `JSON.parse`). -/
def jsTruthy : Option JsonV → Bool
  | none => false
  | some .null => false
  | some (.bool b) => b
  | some (.num q) => decide (q ≠ 0)
  | some (.str s) => s != ""
  | some (.arr _) => true
  | some (.obj _) => true

/-- `typeof j === "object" && j !== null` for a decoded value. -/
def isObjectType : JsonV → Bool
  | .obj _ => true
  | .arr _ => true
  | _ => false

/-- migrations.ts `createAiProfile`; the generated
`ai_${randomUUID()...slice(0, 10)}` suffix and `new Date().toISOString()`
are the parameters `freshSuffix` and `now`. -/
def createAiProfile (config : AiConfig) (name freshSuffix now : String) : AiProfile :=
  ⟨"ai_" ++ freshSuffix, name, config.baseURL, config.apiKey, config.model,
   config.timeoutMs, now, now⟩

/-- The active-id selection in migrations.ts `sanitizeAiSettings` (lines
93-98): `activeProfileIdRaw && profiles.some(p => p.id === raw) ? raw :
profiles[0]?.id ?? null`. -/
def chooseActive (profiles : List AiProfile) (rawActive : Option String) : Option String :=
  match rawActive with
  | some s =>
      if (s != "") && profiles.any (fun p => p.id == s) then some s
      else (profiles.head?).map (fun p => p.id)
  | none => (profiles.head?).map (fun p => p.id)

/-- The final assembly-and-validation step of `sanitizeAiSettings`
(lines 100-112): build the settings and fall back to empty settings if
`aiSettingsSchema` rejects them. -/
def finishAiSettings (profiles : List AiProfile) (rawActive : Option String) : AiSettings :=
  let settings : AiSettings := ⟨chooseActive profiles rawActive, profiles⟩
  if settings.validB then settings else ⟨none, []⟩

/-- migrations.ts `sanitizeAiSettings`. -/
def sanitizeAiSettings (freshSuffix now : String) (input : Option JsonV) : AiSettings :=
  if !jsTruthy input then ⟨none, []⟩
  else match input with
  | none => ⟨none, []⟩
  | some j =>
    match parseAiConfig j with
    | some cfg =>
        let p := createAiProfile cfg "default" freshSuffix now
        ⟨some p.id, [p]⟩
    | none =>
      if !isObjectType j then ⟨none, []⟩
      else
        finishAiSettings
          (match j.getField "profiles" with
           | some (.arr items) => items.filterMap parseAiProfile
           | _ => [])
          (match j.getField "activeProfileId" with
           | some (.str s) => some s
           | _ => none)

/-- migrations.ts `migrateDb`. -/
def migrateDb (freshSuffix now : String) (rawData : Option JsonV) : AppDB :=
  match rawData with
  | none => createDefaultDb
  | some .null => createDefaultDb
  | some j =>
    let cand : JsonV := if isObjectType j then j else .obj []
    let migrated : AppDB :=
      ⟨CURRENT_DB_VERSION,
       sanitizeTemplateList (cand.getField "templates"),
       sanitizeAiSettings freshSuffix now (cand.getField "ai")⟩
    if migrated.validB then migrated else createDefaultDb

/-- Serialization of an optional string field: `JSON.stringify` omits
absent (undefined) properties. -/
def optField (k : String) : Option String → List (String × JsonV)
  | none => []
  | some s => [(k, .str s)]

/-- Serialization of a variable (write-back through `db.write()`). -/
def TemplateVariable.toJson (v : TemplateVariable) : JsonV :=
  .obj ([("key", .str v.key), ("required", .bool v.required)] ++
        optField "defaultValue" v.defaultValue ++ optField "desc" v.desc)

/-- Serialization of a template record. -/
def TemplateRecord.toJson (r : TemplateRecord) : JsonV :=
  .obj ([("id", .str r.id), ("name", .str r.name)] ++
        optField "description" r.description ++
        [("source", .str r.source)] ++
        optField "branch" r.branch ++ optField "subPath" r.subPath ++
        (match r.varDefs with
         | none => []
         | some vs => [("variables", .arr (vs.map TemplateVariable.toJson))]) ++
        [("createdAt", .str r.createdAt), ("updatedAt", .str r.updatedAt)])

/-- Serialization of an AI profile. -/
def AiProfile.toJson (p : AiProfile) : JsonV :=
  .obj [("id", .str p.id), ("name", .str p.name), ("baseURL", .str p.baseURL),
        ("apiKey", .str p.apiKey), ("model", .str p.model),
        ("timeoutMs", .num (p.timeoutMs : Rat)),
        ("createdAt", .str p.createdAt), ("updatedAt", .str p.updatedAt)]

/-- Serialization of AI settings (`null` is written for a null
`activeProfileId`). -/
def AiSettings.toJson (s : AiSettings) : JsonV :=
  .obj [("activeProfileId",
         match s.activeProfileId with
         | none => .null
         | some i => .str i),
        ("profiles", .arr (s.profiles.map AiProfile.toJson))]

/-- Serialization of the whole document. -/
def AppDB.toJson (d : AppDB) : JsonV :=
  .obj [("version", .num (d.version : Rat)),
        ("templates", .arr (d.templates.map TemplateRecord.toJson)),
        ("ai", d.ai.toJson)]


deriving instance DecidableEq for Except

/-- utils/errors.ts `CliError`: a domain error with a human-readable
message and a small positive exit code (always the default 1 in the
modelled call sites). -/
structure CliError where
  message : String
  exitCode : Int
deriving DecidableEq, Repr

/-- Raise a `CliError` with the default exit code, as `new CliError(msg)`. -/
def cliError (m : String) : CliError := ⟨m, 1⟩

/-- db/store.ts `readDb`: re-read the backing file, re-apply the migration
engine, return an independent copy. `disk` is the decoded content of a
readable backing file (the corruption-heal path of `safeRead` concerns
unparseable bytes, which have no `JsonV` representation). -/
def readDb (sfx now : String) (disk : JsonV) : AppDB :=
  migrateDb sfx now (some disk)

/-- db/store.ts `writeDb`: migrate the current content, run the mutator,
and persist (`db.write()`) only if the mutator returned without raising.
The pair is (call result, backing-file content after the call); a raising
mutator is modelled by `Except.error`. -/
def writeDb (sfx now : String) (mutator : AppDB → Except CliError AppDB) (disk : JsonV) :
    Except CliError AppDB × JsonV :=
  match mutator (migrateDb sfx now (some disk)) with
  | .error e => (.error e, disk)
  | .ok d2 => (.ok d2, d2.toJson)

/-- The mutator `addTemplate` passes to `writeDb`
(template-service.ts lines 311-321): conflict checks, then push. -/
def addTemplateMutator (record : TemplateRecord) (draft : AppDB) : Except CliError AppDB :=
  if draft.templates.any (fun t => t.id == record.id) then
    .error (cliError ("模板 ID 已存在: " ++ record.id))
  else if draft.templates.any (fun t => t.name == record.name) then
    .error (cliError ("模板名称已存在: " ++ record.name))
  else .ok { draft with templates := draft.templates ++ [record] }

/-- The compensating mutator in `addTemplate`'s catch block
(template-service.ts lines 331-333): drop the just-inserted record. -/
def removeTemplateMutator (id : String) (draft : AppDB) : Except CliError AppDB :=
  .ok { draft with templates := draft.templates.filter (fun t => !(t.id == id)) }

/-- No two records share an `id`. -/
def NoDupIds (ts : List TemplateRecord) : Prop :=
  (ts.map fun t => t.id).Nodup

/-- No two records share a `name`. -/
def NoDupNames (ts : List TemplateRecord) : Prop :=
  (ts.map fun t => t.name).Nodup

instance decNoDupIds (ts : List TemplateRecord) : Decidable (NoDupIds ts) :=
  inferInstanceAs (Decidable (ts.map fun t : TemplateRecord => t.id).Nodup)

instance decNoDupNames (ts : List TemplateRecord) : Decidable (NoDupNames ts) :=
  inferInstanceAs (Decidable (ts.map fun t : TemplateRecord => t.name).Nodup)

/-- git-source.ts `SUPPORTED_GIT_HOSTS` (fixed priority order). -/
def SUPPORTED_GIT_HOSTS : List String := ["github.com", "gitlab.com", "gitee.com"]

/-!
String helpers. Core `String` functions are re-implemented by structural
recursion on the character list so that concrete runs of the resolver
reduce inside the kernel.
-/

def isPrefixL : List Char → List Char → Bool
  | [], _ => true
  | _ :: _, [] => false
  | a :: as, b :: bs => a == b && isPrefixL as bs

/-- `s.startsWith pre`. -/
def strStartsWith (s pre : String) : Bool := isPrefixL pre.toList s.toList

/-- `s.endsWith suf`. -/
def strEndsWith (s suf : String) : Bool := isPrefixL suf.toList.reverse s.toList.reverse

/-- `s.toLowerCase()` (ASCII, which is all the call sites compare). -/
def strToLower (s : String) : String := String.mk (s.toList.map Char.toLower)

/-- JavaScript `s.trim()`. -/
def jsTrimStr (s : String) : String :=
  String.mk (((s.toList.dropWhile Char.isWhitespace).reverse.dropWhile
    Char.isWhitespace).reverse)

def listSplitFirst (c : Char) : List Char → Option (List Char × List Char)
  | [] => none
  | a :: rest =>
    if a = c then some ([], rest)
    else (listSplitFirst c rest).map (fun pr => (a :: pr.1, pr.2))

/-- Split at the first occurrence of `c`: `some (before, after)`, or `none`
when `c` does not occur. -/
def splitFirst (s : String) (c : Char) : Option (String × String) :=
  (listSplitFirst c s.toList).map (fun pr => (String.mk pr.1, String.mk pr.2))

/-- Split at the last occurrence of `c`: `(before, after)`, or `("", s)`
when `c` does not occur (the WHATWG URL parser splits userinfo from host at
the last `@`). -/
def splitLastAt (s : String) (c : Char) : String × String :=
  match listSplitFirst c s.toList.reverse with
  | none => ("", s)
  | some (x, y) => (String.mk y.reverse, String.mk x.reverse)

def splitOnCharL (c : Char) : List Char → List (List Char)
  | [] => [[]]
  | a :: rest =>
    if a = c then [] :: splitOnCharL c rest
    else match splitOnCharL c rest with
      | [] => [[a]]
      | x :: xs => (a :: x) :: xs

def joinWith (c : Char) : List (List Char) → List Char
  | [] => []
  | [x] => x
  | x :: xs => x ++ c :: joinWith c xs

/-- No JavaScript-`\s` character. `Char.isWhitespace` stands in for the
JS whitespace class. -/
def noWs (s : String) : Bool := !(s.toList.any Char.isWhitespace)

/-- git-source.ts `SCP_LIKE_PATTERN`
`^(?<user>[^@\s]+)@(?<host>[^:\s]+):(?<repoPath>.+)$`: user is the
(nonempty, whitespace-free) prefix before the first `@`, host the
(nonempty, whitespace-free) run from there to the first `:`, repoPath the
nonempty rest. -/
def scpMatch (s : String) : Option (String × String × String) :=
  match splitFirst s '@' with
  | none => none
  | some (user, rest) =>
    if user = "" ∨ noWs user = false then none
    else match splitFirst rest ':' with
      | none => none
      | some (host0, p) =>
        if host0 = "" ∨ noWs host0 = false then none
        else if p = "" then none
        else some (user, host0, p)

/-- Host part of `HOST_ONLY_PATTERN`: `[^/\s]+\.[^/\s]+` needs a dot with
a nonempty prefix and suffix, i.e. a dot that is neither the first nor the
last character. -/
def hasInnerDot (host : String) : Bool :=
  ((host.toList.drop 1).dropLast).contains '.'

/-- git-source.ts `HOST_ONLY_PATTERN`
`^(?<host>[^/\s]+\.[^/\s]+)\/(?<repoPath>.+)$`. -/
def hostOnlyMatch (s : String) : Option (String × String) :=
  match splitFirst s '/' with
  | none => none
  | some (host0, p) =>
    if host0 = "" ∨ noWs host0 = false then none
    else if hasInnerDot host0 = false then none
    else if p = "" then none
    else some (host0, p)

/-- git-source.ts `LOCAL_PATH_HINT_PATTERN`
`^(\.|\/|~|[A-Za-z]:[\\/])`. -/
def localPathHint (s : String) : Bool :=
  strStartsWith s "." || strStartsWith s "/" || strStartsWith s "~" ||
  (match s.toList with
   | c1 :: c2 :: c3 :: _ => c1.isAlpha && c2 = ':' && (c3 = '\\' || c3 = '/')
   | _ => false)

/-- The observable parts of a WHATWG `URL` used by git-source.ts. -/
structure UrlParts where
  scheme : String
  username : String
  hostname : String
  pathname : String
  search : String
  hash : String
deriving DecidableEq, Repr

/-- Schemes the WHATWG parser treats as special (authority follows even
without a literal `//`). -/
def specialSchemes : List String := ["http", "https", "ws", "wss", "ftp", "file"]

def isSchemeChar (c : Char) : Bool := c.isAlphanum || c = '+' || c = '-' || c = '.'

/-- Authority + path/query/fragment parsing shared by the special and
`//`-prefixed branches of `parseURL`. As in WHATWG, `url.search` and
`url.hash` are the empty string when the query/fragment is empty (a bare
trailing `?` or `#`), otherwise they include the leading separator. -/
def parseAuthorityRest (scheme : String) (rest : List Char) : Option UrlParts :=
  let authority := rest.takeWhile (fun c => c ≠ '/' && c ≠ '?' && c ≠ '#')
  let remainder := rest.drop authority.length
  let (userinfo, hostport) := splitLastAt (String.mk authority) '@'
  let username := String.mk (userinfo.toList.takeWhile (fun c => c ≠ ':'))
  let host := String.mk (hostport.toList.takeWhile (fun c => c ≠ ':'))
  if host = "" ∨ noWs host = false then none
  else
    let pathname := remainder.takeWhile (fun c => c ≠ '?' && c ≠ '#')
    let afterPath := remainder.drop pathname.length
    let search := afterPath.takeWhile (fun c => c ≠ '#')
    let hash := afterPath.drop search.length
    some ⟨scheme, username, host, String.mk pathname,
      if search = ['?'] then "" else String.mk search,
      if hash = ['#'] then "" else String.mk hash⟩

/-- Model of `new URL(s)` restricted to the hierarchical shapes git-source.ts
meets: `scheme:[//][userinfo@]host[:port][/path][?query][#fragment]` for
special schemes and explicit `//` authorities, and an opaque path (empty
host) otherwise. `none` models the constructor throwing. Hosts are kept
verbatim (the call sites lowercase them explicitly). -/
def parseURL (s : String) : Option UrlParts :=
  match splitFirst s ':' with
  | none => none
  | some (scheme, rest) =>
    match scheme.toList with
    | [] => none
    | c :: cs =>
      if !(c.isAlpha && cs.all isSchemeChar) then none
      else if specialSchemes.contains (strToLower scheme) then
        parseAuthorityRest scheme (rest.toList.dropWhile (fun a => a = '/' || a = '\\'))
      else if strStartsWith rest "//" then
        parseAuthorityRest scheme (rest.toList.drop 2)
      else
        let pathname := rest.toList.takeWhile (fun a => a ≠ '?' && a ≠ '#')
        let afterPath := rest.toList.drop pathname.length
        let search := afterPath.takeWhile (fun a => a ≠ '#')
        let hash := afterPath.drop search.length
        some ⟨scheme, "", "", String.mk pathname,
          if search = ['?'] then "" else String.mk search,
          if hash = ['#'] then "" else String.mk hash⟩

/-- git-source.ts `ParsedSource` (the `host` kind is `hostOnly` here; each
constructor carries the trimmed input as its last `raw` field; `protocol`
in the `url` constructor is `true` for https, `false` for ssh). -/
inductive ParsedSource where
  | url (host user : String) (protocol : Bool) (repoPath : String) (raw : String)
  | scp (host user repoPath raw : String)
  | hostOnly (host repoPath raw : String)
  | repo (repoPath raw : String)
  | raw (rawStr : String)
deriving DecidableEq, Repr

/-- Strip all leading and trailing `/` (`.replace(/^\/+|\/+$/g, "")`). -/
def trimSlashes (s : String) : String :=
  String.mk (((s.toList.dropWhile (fun c => c = '/')).reverse.dropWhile
    (fun c => c = '/')).reverse)

/-- Strip one trailing `.git`, case-insensitively (`.replace(/\.git$/i, "")`). -/
def stripDotGit (s : String) : String :=
  if strEndsWith (strToLower s) ".git" then String.mk (s.toList.dropLast.dropLast.dropLast.dropLast)
  else s

/-- git-source.ts `normalizeRepoPath`. -/
def normalizeRepoPath (repoPathRaw : String) : Except CliError String :=
  let repoPath := stripDotGit (trimSlashes (jsTrimStr repoPathRaw))
  let segments := (splitOnCharL '/' repoPath.toList).filter (fun seg => seg ≠ [])
  if segments.length < 2 then
    .error (cliError ("无效仓库地址: " ++ repoPathRaw ++ "，至少需要 group/repo"))
  else .ok (String.mk (joinWith '/' segments) ++ ".git")

/-- git-source.ts `parseSource`. -/
def parseSource (input : String) : Except CliError ParsedSource :=
  let raw := jsTrimStr input
  if raw = "" then .error (cliError "git 模板地址不能为空")
  else if localPathHint raw then .ok (.raw raw)
  else
    match scpMatch raw with
    | some (user, host0, repoPath0) =>
      let host := strToLower host0
      if SUPPORTED_GIT_HOSTS.contains host then
        (normalizeRepoPath repoPath0).map (fun rp =>
          .scp host (if user = "" then "git" else user) rp raw)
      else .ok (.raw raw)
    | none =>
      match parseURL raw with
      | some u =>
        let protocol := strToLower u.scheme ++ ":"
        if protocol ≠ "https:" ∧ protocol ≠ "ssh:" then
          .error (cliError ("仅支持 HTTPS 或 SSH 仓库地址: " ++ raw))
        else
          let host := strToLower u.hostname
          if u.search ≠ "" ∨ u.hash ≠ "" then
            .error (cliError ("仓库地址不能包含 query/hash: " ++ raw))
          else if SUPPORTED_GIT_HOSTS.contains host then
            (normalizeRepoPath u.pathname).map (fun rp =>
              .url host (if u.username = "" then "git" else u.username)
                (protocol = "https:") rp raw)
          else .ok (.raw raw)
      | none =>
        match hostOnlyMatch raw with
        | some (host0, repoPath0) =>
          let host := strToLower host0
          if SUPPORTED_GIT_HOSTS.contains host then
            (normalizeRepoPath repoPath0).map (fun rp => .hostOnly host rp raw)
          else .ok (.raw raw)
        | none =>
          if raw.toList.contains '/' then
            (normalizeRepoPath raw).map (fun rp => .repo rp raw)
          else .ok (.raw raw)

/-- git-source.ts `toHttpsSource`. -/
def toHttpsSource (host repoPath : String) : String :=
  "https://" ++ host ++ "/" ++ repoPath

/-- git-source.ts `toScpSource` (the TS default `user = "git"` is passed
explicitly at the call sites that omit it). -/
def toScpSource (host repoPath user : String) : String :=
  user ++ "@" ++ host ++ ":" ++ repoPath

/-- git-source.ts `normalizeTemplateGitSource`. -/
def normalizeTemplateGitSource (source : String) : Except CliError String :=
  (parseSource source).map fun parsed =>
    match parsed with
    | .url host user protocol repoPath _ =>
      if protocol then toHttpsSource host repoPath
      else "ssh://" ++ user ++ "@" ++ host ++ "/" ++ repoPath
    | .scp host user repoPath _ => toScpSource host repoPath user
    | .hostOnly host repoPath _ => toHttpsSource host repoPath
    | .repo repoPath _ => repoPath
    | .raw r => r

/-- git-source.ts `buildTemplateGitSourceCandidates`. -/
def buildTemplateGitSourceCandidates (source : String) : Except CliError (List String) :=
  (parseSource source).map fun parsed =>
    match parsed with
    | .url host user protocol repoPath _ =>
      if protocol then [toHttpsSource host repoPath, toScpSource host repoPath user]
      else ["ssh://" ++ user ++ "@" ++ host ++ "/" ++ repoPath, toHttpsSource host repoPath]
    | .scp host user repoPath _ =>
      [toScpSource host repoPath user, toHttpsSource host repoPath]
    | .hostOnly host repoPath _ =>
      [toHttpsSource host repoPath, toScpSource host repoPath "git"]
    | .repo repoPath _ =>
      SUPPORTED_GIT_HOSTS.flatMap (fun host =>
        [toHttpsSource host repoPath, toScpSource host repoPath "git"])
    | .raw r => [r]

/-!
Template fetch engine (template-service.ts). The file system relevant to a
sync is a finite map from directory path to the abstract content of the
tree stored there; a tree is the list of relative paths present inside it.
`simpleGit().clone` is an oracle from candidate address to fetched tree or
failure message (`asErrorMessage` of the thrown error); the branch option
and destination do not vary within one sync.
-/

/-- File system: directory path to tree content (whole directories only —
the engine removes, creates and moves whole trees). -/
abbrev FS := List (String × List String)

def fsGet (fs : FS) (p : String) : Option (List String) := fs.lookup p

/-- `fs.remove(p)` on a whole directory: drop the entry keyed `p`. -/
def fsRemove : FS → String → FS
  | [], _ => []
  | kv :: rest, p => if kv.1 = p then fsRemove rest p else kv :: fsRemove rest p

/-- Create/replace the directory `p` with content `t`. -/
def fsSet (fs : FS) (p : String) (t : List String) : FS := (p, t) :: fsRemove fs p

/-- `fs.move(src, dst)`: relocate the tree (the engine only moves onto a
just-removed destination). -/
def fsMove (fs : FS) (src dst : String) : FS :=
  match fsGet fs src with
  | none => fs
  | some t => fsSet (fsRemove fs src) dst t

/-- `fs.pathExists(path.join(dir, sub))` for a subdirectory of a cached
tree. -/
def fsSubExists (fs : FS) (dir sub : String) : Bool :=
  match fsGet fs dir with
  | some t => t.contains sub
  | none => false

/-- utils/path.ts `getScafkitPaths().templatesDir`, abstracted to a fixed
root (the env-dependent home directory does not vary within a run). -/
def templatesDir : String := "~/.scafkit/templates"

/-- template-service.ts `getTemplateCacheDir`. -/
def getTemplateCacheDir (templateId : String) : String :=
  templatesDir ++ "/" ++ templateId

/-- The scratch directory `${finalDir}.tmp.${Date.now()}`; `ts` is the
drawn timestamp. -/
def tempDirOf (templateId ts : String) : String :=
  getTemplateCacheDir templateId ++ ".tmp." ++ ts

/-- The candidate loop of template-service.ts `cloneGitTemplate`
(lines 268-278): remove the scratch directory, try the clone, return the
succeeding source or accumulate `source: reason` and continue; when the
list is exhausted raise the aggregate transfer error. -/
def cloneLoop (git : String → Except String (List String)) (targetDir : String) :
    List String → FS → List String → Except CliError String × FS
  | [], fs, errs =>
      (.error (cliError ("模板仓库同步失败，已尝试:\n" ++ String.intercalate "\n" errs)), fs)
  | c :: rest, fs, errs =>
    let fs1 := fsRemove fs targetDir
    match git c with
    | .ok t => (.ok c, fsSet fs1 targetDir t)
    | .error m => cloneLoop git targetDir rest fs1 (errs ++ [c ++ ": " ++ m])

/-- template-service.ts `cloneGitTemplate` (`fs.ensureDir` of the parent
has no observable effect in this model). -/
def cloneGitTemplate (git : String → Except String (List String))
    (sourceCandidates : List String) (targetDir : String) (fs : FS) :
    Except CliError String × FS :=
  cloneLoop git targetDir sourceCandidates fs []

/-- In-place update of the first record with the given id, as
`findIndex` + assignment in the `writeDb` callback of `syncTemplate`
(lines 404-414); a missing id leaves the draft unchanged. -/
def setSourceFirst (id usedSource nowUpd : String) : List TemplateRecord → List TemplateRecord
  | [] => []
  | t :: rest =>
    if t.id == id then { t with source := usedSource, updatedAt := nowUpd } :: rest
    else t :: setSourceFirst id usedSource nowUpd rest

/-- The mutator `syncTemplate` passes to `writeDb` after a transfer whose
successful candidate differs from the stored source. -/
def updateSourceMutator (id usedSource nowUpd : String) (draft : AppDB) :
    Except CliError AppDB :=
  .ok { draft with templates := setSourceFirst id usedSource nowUpd draft.templates }

/-- Result of one `syncTemplate` call: the propagated result, the backing
file after the call, and the file system after the call. -/
structure SyncResult where
  result : Except CliError Unit
  disk : JsonV
  fs : FS

/-- The promotion tail of `syncTemplate` (lines 400-415): remove the old
cache, move the scratch tree in, and write the corrected source back when
it differs from the stored one. -/
def syncPromote (sfxB nowB nowUpd id usedSource storedSource tempDir finalDir : String)
    (disk : JsonV) (fs1 : FS) : SyncResult :=
  let fs2 := fsMove (fsRemove fs1 finalDir) tempDir finalDir
  if usedSource ≠ storedSource then
    ⟨.ok (), (writeDb sfxB nowB (updateSourceMutator id usedSource nowUpd) disk).2, fs2⟩
  else ⟨.ok (), disk, fs2⟩

/-- template-service.ts `syncTemplate` (lines 385-420). `sfxA`/`nowA` feed
the read migration, `sfxB`/`nowB` the write-back migration, `nowUpd` the
record's new `updatedAt`, `ts` the scratch-directory timestamp. -/
def syncTemplate (git : String → Except String (List String))
    (sfxA nowA sfxB nowB nowUpd ts id : String) (disk : JsonV) (fs : FS) : SyncResult :=
  match (migrateDb sfxA nowA (some disk)).templates.find? (fun t => t.id == id) with
  | none => ⟨.error (cliError ("未找到模板: " ++ id)), disk, fs⟩
  | some template =>
    let finalDir := getTemplateCacheDir id
    let tempDir := tempDirOf id ts
    match buildTemplateGitSourceCandidates template.source with
    | .error e => ⟨.error e, disk, fs⟩
    | .ok sourceCandidates =>
      let fs0 := fsRemove fs tempDir
      match cloneGitTemplate git sourceCandidates tempDir fs0 with
      | (.error e, fs1) => ⟨.error e, disk, fsRemove fs1 tempDir⟩
      | (.ok usedSource, fs1) =>
        match template.subPath with
        | some sp =>
          if fsSubExists fs1 tempDir sp then
            syncPromote sfxB nowB nowUpd id usedSource template.source tempDir finalDir
              disk fs1
          else ⟨.error (cliError ("模板 subPath 不存在: " ++ sp)), disk, fsRemove fs1 tempDir⟩
        | none =>
          syncPromote sfxB nowB nowUpd id usedSource template.source tempDir finalDir
            disk fs1

/-!
Concrete fixtures used by the witnesses of the fetch-engine theorems.
-/

/-- A stored git template whose source is the unqualified repo shape. -/
def wRec : TemplateRecord :=
  ⟨"tpl_1", "alpha", none, "acme/tpl.git", none, none, none, "c", "u"⟩

/-- A stored template with a declared `subPath` and a raw local source. -/
def wRecSub : TemplateRecord :=
  ⟨"tpl_1", "alpha", none, "./local", none, some "sub", none, "c", "u"⟩

/-- A new record whose raw source will fail to clone. -/
def wRecNew : TemplateRecord :=
  ⟨"tpl_2", "beta", none, "./missing", none, none, none, "c", "u"⟩

/-- Backing file holding just `wRec`. -/
def wDisk : JsonV := (AppDB.mk 2 [wRec] ⟨none, []⟩).toJson

/-- Backing file holding just `wRecSub`. -/
def wDiskSub : JsonV := (AppDB.mk 2 [wRecSub] ⟨none, []⟩).toJson

/-- The six candidates the resolver builds for `wRec`. -/
def wCands : List String :=
  ["https://github.com/acme/tpl.git", "git@github.com:acme/tpl.git",
   "https://gitlab.com/acme/tpl.git", "git@gitlab.com:acme/tpl.git",
   "https://gitee.com/acme/tpl.git", "git@gitee.com:acme/tpl.git"]

/-- Clone oracle succeeding only on the first github candidate. -/
def wGitOk : String → Except String (List String) := fun c =>
  if c = "https://github.com/acme/tpl.git" then .ok ["x"] else .error "no"

/-- Clone oracle that always fails with reason `boom`. -/
def wGitFail : String → Except String (List String) := fun _ => .error "boom"

/-- Clone oracle that succeeds with an empty tree (no `sub` inside). -/
def wGitEmpty : String → Except String (List String) := fun _ => .ok []

/-- Sanity anchor mirroring migrations.test.ts: `migrateDb(undefined)`
returns the default document. -/
example : migrateDb "x" "t" none = createDefaultDb := rfl

theorem parseTemplateVariable_toJson (v : TemplateVariable) :
    parseTemplateVariable v.toJson = if v.validB then some v else none := by
  obtain ⟨key, req, dv, d⟩ := v
  rcases dv with _ | dv <;> rcases d with _ | d <;>
    simp [parseTemplateVariable, TemplateVariable.toJson, TemplateVariable.validB, optField,
      List.lookup, parseStr1, parseBool, parseOptStr] <;>
    by_cases h : 1 ≤ key.length <;> simp [h]

theorem parseVariableList_toJson (vs : List TemplateVariable) :
    parseVariableList (vs.map TemplateVariable.toJson)
      = if vs.all TemplateVariable.validB then some vs else none := by
  induction vs with
  | nil => simp [parseVariableList]
  | cons v l ih =>
    simp only [List.map_cons, parseVariableList, parseTemplateVariable_toJson, ih, List.all_cons]
    by_cases hv : v.validB <;> by_cases hl : l.all TemplateVariable.validB <;> simp [hv, hl]

set_option maxHeartbeats 2000000 in
theorem parseTemplateRecord_toJson (r : TemplateRecord) :
    parseTemplateRecord r.toJson = if r.validB then some r else none := by
  obtain ⟨id, name, desc, src, br, sp, vars, ca, ua⟩ := r
  rcases desc with _ | d <;> rcases br with _ | b <;> rcases sp with _ | s <;>
    rcases vars with _ | vs <;>
    simp only [parseTemplateRecord, TemplateRecord.toJson, TemplateRecord.validB, optField,
      List.cons_append, List.nil_append, List.lookup, parseOptVariables, parseVariableList_toJson,
      parseStr1, parseOptStr] <;>
    by_cases h1 : 1 ≤ id.length <;> by_cases h2 : 1 ≤ name.length <;>
    by_cases h3 : 1 ≤ src.length <;> by_cases h4 : 1 ≤ ca.length <;>
    by_cases h5 : 1 ≤ ua.length <;>
    first
      | (by_cases hv : vs.all TemplateVariable.validB <;>
            simp [h1, h2, h3, h4, h5, hv, parseVariableList_toJson])
      | simp [h1, h2, h3, h4, h5]

theorem isLegacyLocalEntry_toJson (r : TemplateRecord) :
    isLegacyLocalEntry r.toJson = false := by
  obtain ⟨id, name, desc, src, br, sp, vars, ca, ua⟩ := r
  rcases desc with _ | d <;> rcases br with _ | b <;> rcases sp with _ | s <;>
    rcases vars with _ | vs <;>
    simp [isLegacyLocalEntry, TemplateRecord.toJson, optField, List.lookup]

/-- `sanitizeTemplateList` on a serialized record list keeps exactly the
records the schema re-accepts. -/
theorem sanitizeTemplateList_toJson (ts : List TemplateRecord) :
    sanitizeTemplateList (some (.arr (ts.map TemplateRecord.toJson)))
      = ts.filter TemplateRecord.validB := by
  induction ts with
  | nil => simp [sanitizeTemplateList]
  | cons t l ih =>
    simp only [sanitizeTemplateList] at ih
    simp only [sanitizeTemplateList, List.map_cons, List.filterMap_cons,
      isLegacyLocalEntry_toJson, parseTemplateRecord_toJson, List.filter_cons]
    by_cases ht : t.validB <;> simp [ht, ih]

set_option maxHeartbeats 2000000 in
theorem parseAiProfile_toJson (p : AiProfile) :
    parseAiProfile p.toJson = if p.validB then some p else none := by
  obtain ⟨i, n, b, k, m, t, ca, ua⟩ := p
  simp only [parseAiProfile, AiProfile.toJson, AiProfile.validB, List.lookup, parseStr1,
    parsePosInt, Rat.den_intCast, Int.cast_pos]
  by_cases h1 : 1 ≤ i.length <;> by_cases h2 : 1 ≤ n.length <;>
  by_cases h3 : 1 ≤ b.length <;> by_cases h4 : 1 ≤ k.length <;>
  by_cases h5 : 1 ≤ m.length <;> by_cases h6 : (0 : Int) < t <;>
  by_cases h7 : 1 ≤ ca.length <;> by_cases h8 : 1 ≤ ua.length <;>
  simp [h1, h2, h3, h4, h5, h6, h7, h8, Rat.num_intCast, Int.cast_pos]

theorem filterMap_parseAiProfile_toJson (ps : List AiProfile) :
    (ps.map AiProfile.toJson).filterMap parseAiProfile = ps.filter AiProfile.validB := by
  induction ps with
  | nil => simp
  | cons p l ih =>
    simp only [List.map_cons, List.filterMap_cons, parseAiProfile_toJson, List.filter_cons]
    by_cases hp : p.validB <;> simp [hp, ih]

/-- The referential part of the AI-settings invariant: the active profile id
is null exactly when no profile exists, and otherwise points at a present
profile. -/
def AiSettings.activeOkB (s : AiSettings) : Bool :=
  match s.activeProfileId with
  | none => s.profiles.isEmpty
  | some i => s.profiles.any (fun p => p.id == i)

theorem chooseActive_ok (profiles : List AiProfile) (rawActive : Option String) :
    (AiSettings.mk (chooseActive profiles rawActive) profiles).activeOkB = true := by
  rcases rawActive with _ | s
  · cases profiles <;> simp [chooseActive, AiSettings.activeOkB]
  · show (AiSettings.mk
        (if (s != "" && profiles.any fun p => p.id == s) = true
         then some s else (profiles.head?).map (fun p => p.id)) profiles).activeOkB = true
    by_cases hcond : ((s != "") && (profiles.any fun p => p.id == s)) = true
    · rw [if_pos hcond]
      simp only [AiSettings.activeOkB]
      simp only [Bool.and_eq_true] at hcond
      exact hcond.2
    · rw [if_neg hcond]
      cases profiles <;> simp [AiSettings.activeOkB]

theorem finishAiSettings_activeOk (profiles : List AiProfile) (rawActive : Option String) :
    (finishAiSettings profiles rawActive).activeOkB = true := by
  unfold finishAiSettings
  by_cases h : (AiSettings.mk (chooseActive profiles rawActive) profiles).validB
  · simpa [h] using chooseActive_ok profiles rawActive
  · simp [h, AiSettings.activeOkB]

/-- Every result of `sanitizeAiSettings` satisfies the active-id invariant. -/
theorem sanitizeAiSettings_activeOk (sfx now : String) (input : Option JsonV) :
    (sanitizeAiSettings sfx now input).activeOkB = true := by
  unfold sanitizeAiSettings
  by_cases htr : jsTruthy input
  · rcases input with _ | j
    · simp [AiSettings.activeOkB]
    · simp only [htr, Bool.not_true, Bool.false_eq_true, if_false]
      cases hcfg : parseAiConfig j with
      | some cfg => simp [hcfg, AiSettings.activeOkB, createAiProfile]
      | none =>
        simp only [hcfg]
        by_cases hobj : isObjectType j
        · simp [hobj, finishAiSettings_activeOk]
        · simp [hobj, AiSettings.activeOkB]
  · simp [htr, AiSettings.activeOkB]

/-- `sanitizeAiSettings` on a serialized settings object: the legacy
flat-config parse fails and the pieces are handed to `finishAiSettings`. -/
theorem sanitizeAiSettings_settings_obj (sfx now : String) (X : JsonV) (ps : List JsonV) :
    sanitizeAiSettings sfx now (some (.obj [("activeProfileId", X), ("profiles", .arr ps)]))
      = finishAiSettings (ps.filterMap parseAiProfile)
          (match X with | .str s => some s | _ => none) := by
  cases X <;>
    simp [sanitizeAiSettings, jsTruthy, isObjectType, parseAiConfig, JsonV.getField,
      List.lookup, parseStr1]

/-- Round-trip for AI settings that satisfy both the schema and the
active-id invariant. -/
theorem sanitizeAiSettings_toJson (sfx now : String) (s : AiSettings)
    (hv : s.validB = true) (ha : s.activeOkB = true) :
    sanitizeAiSettings sfx now (some s.toJson) = s := by
  obtain ⟨active, profiles⟩ := s
  have hprofValid : profiles.all AiProfile.validB = true := by
    simp only [AiSettings.validB, Bool.and_eq_true] at hv
    exact hv.2
  have hfilter : profiles.filter AiProfile.validB = profiles :=
    List.filter_eq_self.mpr (fun a haMem => List.all_eq_true.mp hprofValid a haMem)
  have hprofiles : (profiles.map AiProfile.toJson).filterMap parseAiProfile = profiles := by
    rw [filterMap_parseAiProfile_toJson, hfilter]
  rcases active with _ | i
  · have hempty : profiles = [] := by
      simpa [AiSettings.activeOkB, List.isEmpty_iff] using ha
    subst hempty
    rw [show (AiSettings.mk none []).toJson
          = .obj [("activeProfileId", .null), ("profiles", .arr [])] from rfl]
    rw [sanitizeAiSettings_settings_obj]
    rfl
  · have hne : (i != "") = true := by
      simp only [AiSettings.validB, Bool.and_eq_true] at hv
      rcases hv with ⟨hv1, _⟩
      simp only [bne_iff_ne, ne_eq]
      intro hcontr
      subst hcontr
      simp at hv1
    have hany : (profiles.any fun p => p.id == i) = true := by
      simpa [AiSettings.activeOkB] using ha
    rw [show (AiSettings.mk (some i) profiles).toJson
          = .obj [("activeProfileId", .str i),
                  ("profiles", .arr (profiles.map AiProfile.toJson))] from rfl]
    rw [sanitizeAiSettings_settings_obj, hprofiles]
    unfold finishAiSettings chooseActive
    simp only [hne, hany, Bool.and_self, if_true]
    simp [hv]

/-- The invariant every document returned by `migrateDb` satisfies: current
version, schema-valid, referentially-sound active AI profile id. -/
def AppDB.goodB (d : AppDB) : Bool :=
  (d.version == CURRENT_DB_VERSION) && d.validB && d.ai.activeOkB

theorem migratedCore_good (sfx now : String) (o1 o2 : Option JsonV) :
    (if (AppDB.mk CURRENT_DB_VERSION (sanitizeTemplateList o1)
          (sanitizeAiSettings sfx now o2)).validB
     then AppDB.mk CURRENT_DB_VERSION (sanitizeTemplateList o1)
          (sanitizeAiSettings sfx now o2)
     else createDefaultDb).goodB = true := by
  by_cases h : (AppDB.mk CURRENT_DB_VERSION (sanitizeTemplateList o1)
      (sanitizeAiSettings sfx now o2)).validB
  · simp only [h, if_true, AppDB.goodB]
    simp [h, sanitizeAiSettings_activeOk]
  · simp only [h, Bool.false_eq_true, if_false]
    rfl

/-- Every output of `migrateDb` satisfies the `goodB` invariant. -/
theorem migrateDb_good (sfx now : String) (raw : Option JsonV) :
    (migrateDb sfx now raw).goodB = true := by
  rcases raw with _ | j
  · rfl
  · cases j with
    | null => rfl
    | bool b => exact migratedCore_good sfx now _ _
    | num q => exact migratedCore_good sfx now _ _
    | str s => exact migratedCore_good sfx now _ _
    | arr items => exact migratedCore_good sfx now _ _
    | obj fields => exact migratedCore_good sfx now _ _

/-- Round-trip: re-migrating the serialization of a good document is the
identity. -/
theorem migrateDb_toJson (sfx now : String) (d : AppDB) (h : d.goodB = true) :
    migrateDb sfx now (some d.toJson) = d := by
  obtain ⟨v, ts, ai⟩ := d
  simp only [AppDB.goodB, Bool.and_eq_true, beq_iff_eq] at h
  obtain ⟨⟨hver, hvalid⟩, hactive⟩ := h
  subst hver
  have hvB := hvalid
  simp only [AppDB.validB, Bool.and_eq_true] at hvB
  obtain ⟨⟨_, hts⟩, hai⟩ := hvB
  have htsFilter : ts.filter TemplateRecord.validB = ts :=
    List.filter_eq_self.mpr (fun a haMem => List.all_eq_true.mp hts a haMem)
  have haiRound : sanitizeAiSettings sfx now (some ai.toJson) = ai :=
    sanitizeAiSettings_toJson sfx now ai hai hactive
  simp [migrateDb, AppDB.toJson, isObjectType, JsonV.getField, List.lookup,
    sanitizeTemplateList_toJson, htsFilter, haiRound, hvalid]

/-- Serializing a good document and re-migrating under any fresh
uuid/timestamp yields the templates filtered by schema validity and the
settings unchanged (version field of the input is ignored). -/
theorem migrateDb_toJson_general (sfx now : String) (v : Int) (ts : List TemplateRecord)
    (ai : AiSettings) (hai : ai.validB = true) (hactive : ai.activeOkB = true) :
    migrateDb sfx now (some (AppDB.mk v ts ai).toJson)
      = AppDB.mk CURRENT_DB_VERSION (ts.filter TemplateRecord.validB) ai := by
  have haiRound : sanitizeAiSettings sfx now (some ai.toJson) = ai :=
    sanitizeAiSettings_toJson sfx now ai hai hactive
  have hallFilter : (ts.filter TemplateRecord.validB).all TemplateRecord.validB = true := by
    simp only [List.all_eq_true]
    intro a haMem
    exact (List.mem_filter.mp haMem).2
  have hvalid : (AppDB.mk CURRENT_DB_VERSION (ts.filter TemplateRecord.validB) ai).validB
      = true := by
    simp [AppDB.validB, hallFilter, hai, CURRENT_DB_VERSION]
  simp [migrateDb, AppDB.toJson, isObjectType, JsonV.getField, List.lookup,
    sanitizeTemplateList_toJson, haiRound, hvalid]

/-- C2: the Migration Engine is idempotent — for every decoded JSON value
`x` (including the absent value `none` and arbitrary legacy or corrupt
shapes), migrating the (re-serialized) result of a migration returns the
same document, whatever fresh uuid suffix and timestamp each run draws. -/
theorem C2_migrateDb_idempotent (sfx1 now1 sfx2 now2 : String) (x : Option JsonV) :
    migrateDb sfx2 now2 (some (migrateDb sfx1 now1 x).toJson) = migrateDb sfx1 now1 x :=
  migrateDb_toJson sfx2 now2 _ (migrateDb_good sfx1 now1 x)

/-- C1: a mutator that raises a domain error aborts `writeDb` with nothing
persisted — the backing file after the failed call equals the file before —
and the error reaches the caller unchanged; in particular, adding a
template whose name already exists fails with the name-conflict error
inside the mutate callback and a subsequent load returns the same
templates list. -/
theorem C1_writeDb_failed_mutator_persists_nothing :
    (∀ (sfx now : String) (mutator : AppDB → Except CliError AppDB) (disk : JsonV)
        (e : CliError), mutator (readDb sfx now disk) = .error e →
        writeDb sfx now mutator disk = (.error e, disk)) ∧
    (∀ (sfx now : String) (record : TemplateRecord) (disk : JsonV),
        ((readDb sfx now disk).templates.any fun t => t.id == record.id) = false →
        ((readDb sfx now disk).templates.any fun t => t.name == record.name) = true →
        writeDb sfx now (addTemplateMutator record) disk
            = (.error (cliError ("模板名称已存在: " ++ record.name)), disk) ∧
          (readDb sfx now (writeDb sfx now (addTemplateMutator record) disk).2).templates
            = (readDb sfx now disk).templates) := by
  constructor
  · intro sfx now mutator disk e h
    unfold readDb at h
    unfold writeDb
    rw [h]
  · intro sfx now record disk h1 h2
    have hmut : addTemplateMutator record (readDb sfx now disk)
        = .error (cliError ("模板名称已存在: " ++ record.name)) := by
      unfold addTemplateMutator
      simp [h1, h2]
    have hw : writeDb sfx now (addTemplateMutator record) disk
        = (.error (cliError ("模板名称已存在: " ++ record.name)), disk) := by
      unfold writeDb
      rw [show migrateDb sfx now (some disk) = readDb sfx now disk from rfl, hmut]
    exact ⟨hw, by rw [hw]⟩

/-- Witness for C1 at concrete inputs: an always-raising mutator, and a
name conflict against a stored document holding the template "alpha". -/
theorem C1_writeDb_failed_mutator_persists_nothing_witness :
    (writeDb "s" "t" (fun _ => .error (cliError "boom")) (JsonV.obj [])
        = (.error (cliError "boom"), JsonV.obj [])) ∧
    (writeDb "s" "t"
        (addTemplateMutator ⟨"tpl_b", "alpha", none, "src2", none, none, none, "c", "u"⟩)
        ((AppDB.mk 2 [⟨"tpl_a", "alpha", none, "https://github.com/a/b.git", none, none, none,
            "2026-01-01T00:00:00.000Z", "2026-01-01T00:00:00.000Z"⟩] ⟨none, []⟩).toJson)
        = (.error (cliError ("模板名称已存在: " ++ "alpha")),
           (AppDB.mk 2 [⟨"tpl_a", "alpha", none, "https://github.com/a/b.git", none, none, none,
              "2026-01-01T00:00:00.000Z", "2026-01-01T00:00:00.000Z"⟩] ⟨none, []⟩).toJson)) :=
  ⟨C1_writeDb_failed_mutator_persists_nothing.1 "s" "t"
      (fun _ => .error (cliError "boom")) (JsonV.obj []) (cliError "boom") rfl,
   (C1_writeDb_failed_mutator_persists_nothing.2 "s" "t"
      ⟨"tpl_b", "alpha", none, "src2", none, none, none, "c", "u"⟩
      ((AppDB.mk 2 [⟨"tpl_a", "alpha", none, "https://github.com/a/b.git", none, none, none,
          "2026-01-01T00:00:00.000Z", "2026-01-01T00:00:00.000Z"⟩] ⟨none, []⟩).toJson)
      (by decide) (by decide)).1⟩

/-- C3 counterexample: `migrateDb` does not deduplicate — a raw input whose
`templates` array holds the same valid record twice migrates to a document
whose templates list has a duplicated id and a duplicated name. -/
theorem C3_counterexample :
    ¬ NoDupIds (migrateDb "s" "t" (some (JsonV.obj [("templates",
        JsonV.arr [(TemplateRecord.mk "tpl_dup" "dup" none "src" none none none
                      "c" "u").toJson,
                   (TemplateRecord.mk "tpl_dup" "dup" none "src" none none none
                      "c" "u").toJson])]))).templates ∧
    ¬ NoDupNames (migrateDb "s" "t" (some (JsonV.obj [("templates",
        JsonV.arr [(TemplateRecord.mk "tpl_dup" "dup" none "src" none none none
                      "c" "u").toJson,
                   (TemplateRecord.mk "tpl_dup" "dup" none "src" none none none
                      "c" "u").toJson])]))).templates := by
  constructor
  · intro h
    exact absurd h (by decide)
  · intro h
    exact absurd h (by decide)

/-- C3 amended: migration and the write path preserve (rather than
establish) uniqueness — re-migrating the serialization of a good document
with duplicate-free templates yields duplicate-free templates, and the
`addTemplate` conflict checks keep a duplicate-free draft duplicate-free. -/
theorem C3_no_dup_preserved :
    (∀ (sfx now : String) (d : AppDB), d.goodB = true →
        NoDupIds d.templates → NoDupNames d.templates →
        NoDupIds (migrateDb sfx now (some d.toJson)).templates ∧
        NoDupNames (migrateDb sfx now (some d.toJson)).templates) ∧
    (∀ (record : TemplateRecord) (draft d2 : AppDB),
        addTemplateMutator record draft = .ok d2 →
        NoDupIds draft.templates → NoDupNames draft.templates →
        NoDupIds d2.templates ∧ NoDupNames d2.templates) := by
  constructor
  · intro sfx now d hg hid hname
    rw [migrateDb_toJson sfx now d hg]
    exact ⟨hid, hname⟩
  · intro record draft d2 hmut hid hname
    unfold addTemplateMutator at hmut
    by_cases hA : (draft.templates.any fun t => t.id == record.id) = true
    · rw [if_pos hA] at hmut
      exact absurd hmut (by simp)
    · rw [if_neg hA] at hmut
      by_cases hB : (draft.templates.any fun t => t.name == record.name) = true
      · rw [if_pos hB] at hmut
        exact absurd hmut (by simp)
      · rw [if_neg hB] at hmut
        have hd2 : d2 = { draft with templates := draft.templates ++ [record] } := by
          cases hmut
          rfl
        subst hd2
        constructor
        · unfold NoDupIds at hid ⊢
          simp only [List.map_append, List.map_cons, List.map_nil]
          refine hid.append (by simp) ?_
          intro a ha hb
          simp only [List.mem_singleton] at hb
          subst hb
          apply hA
          rw [List.any_eq_true]
          rcases List.mem_map.mp ha with ⟨t, htMem, htid⟩
          exact ⟨t, htMem, by simp [htid]⟩
        · unfold NoDupNames at hname ⊢
          simp only [List.map_append, List.map_cons, List.map_nil]
          refine hname.append (by simp) ?_
          intro a ha hb
          simp only [List.mem_singleton] at hb
          subst hb
          apply hB
          rw [List.any_eq_true]
          rcases List.mem_map.mp ha with ⟨t, htMem, htname⟩
          exact ⟨t, htMem, by simp [htname]⟩

/-- Witness for the amended C3 at concrete inputs. -/
theorem C3_no_dup_preserved_witness :
    (NoDupIds (migrateDb "s" "t" (some (AppDB.mk 2
        [⟨"tpl_a", "alpha", none, "src", none, none, none, "c", "u"⟩] ⟨none, []⟩).toJson)).templates ∧
     NoDupNames (migrateDb "s" "t" (some (AppDB.mk 2
        [⟨"tpl_a", "alpha", none, "src", none, none, none, "c", "u"⟩] ⟨none, []⟩).toJson)).templates) ∧
    (NoDupIds (AppDB.mk 2
        [⟨"tpl_a", "alpha", none, "src", none, none, none, "c", "u"⟩,
         ⟨"tpl_b", "beta", none, "src2", none, none, none, "c", "u"⟩] ⟨none, []⟩).templates ∧
     NoDupNames (AppDB.mk 2
        [⟨"tpl_a", "alpha", none, "src", none, none, none, "c", "u"⟩,
         ⟨"tpl_b", "beta", none, "src2", none, none, none, "c", "u"⟩] ⟨none, []⟩).templates) :=
  ⟨C3_no_dup_preserved.1 "s" "t"
      (AppDB.mk 2 [⟨"tpl_a", "alpha", none, "src", none, none, none, "c", "u"⟩] ⟨none, []⟩)
      (by decide) (by decide) (by decide),
   C3_no_dup_preserved.2
      ⟨"tpl_b", "beta", none, "src2", none, none, none, "c", "u"⟩
      (AppDB.mk 2 [⟨"tpl_a", "alpha", none, "src", none, none, none, "c", "u"⟩] ⟨none, []⟩)
      (AppDB.mk 2 [⟨"tpl_a", "alpha", none, "src", none, none, none, "c", "u"⟩,
         ⟨"tpl_b", "beta", none, "src2", none, none, none, "c", "u"⟩] ⟨none, []⟩)
      (by rfl) (by decide) (by decide)⟩

/-- Sanity anchors mirroring git-source.test.ts. -/
example : normalizeTemplateGitSource "https://github.com/openai/scafkit"
    = .ok "https://github.com/openai/scafkit.git" := by decide

example : normalizeTemplateGitSource "git@gitlab.com:group/scafkit"
    = .ok "git@gitlab.com:group/scafkit.git" := by decide

example : normalizeTemplateGitSource "gitee.com/acme/template-repo"
    = .ok "https://gitee.com/acme/template-repo.git" := by decide

example : normalizeTemplateGitSource "acme/template-repo"
    = .ok "acme/template-repo.git" := by decide

example : normalizeTemplateGitSource "http://github.com/openai/scafkit"
    = .error (cliError "仅支持 HTTPS 或 SSH 仓库地址: http://github.com/openai/scafkit") := by
  decide

/-- A bare trailing `?` or `#` is an empty query/fragment (`url.search` and
`url.hash` are `""`), so the line-66 check does not fire and the address
canonicalizes normally. -/
example : normalizeTemplateGitSource "https://github.com/a/b?"
    = .ok "https://github.com/a/b.git" := by decide

example : normalizeTemplateGitSource "https://example.org/a/b#"
    = .ok "https://example.org/a/b#" := by decide

theorem strEndsWith_append_git (l : List Char) :
    strEndsWith (String.mk l ++ ".git") ".git" = true := by
  show isPrefixL (".git".toList.reverse) ((String.mk l ++ ".git").toList.reverse) = true
  have hdata : (String.mk l ++ ".git").toList = l ++ ".git".toList := rfl
  rw [hdata]
  simp [List.reverse_append, isPrefixL]

/-- Every normalized repo path carries the re-appended `.git` suffix. -/
theorem normalizeRepoPath_git_suffix (x rp : String)
    (h : normalizeRepoPath x = .ok rp) : strEndsWith rp ".git" = true := by
  simp only [normalizeRepoPath] at h
  split at h
  · simp at h
  · injection h with hrp
    subst hrp
    exact strEndsWith_append_git _

/-- C7 counterexample: the claim states the ssh canonical form as
`ssh://user@host/owner/repo`, without the `.git` suffix it writes
explicitly for every other shape; the code re-appends `.git` to the repo
path for the ssh shape too. -/
theorem C7_counterexample :
    normalizeTemplateGitSource "ssh://git@github.com/acme/tpl"
      = .ok "ssh://git@github.com/acme/tpl.git" ∧
    strEndsWith "ssh://git@github.com/acme/tpl.git" ".git" = true ∧
    "ssh://git@github.com/acme/tpl.git" ≠ "ssh://git@github.com/acme/tpl" := by
  refine ⟨by decide, by decide, by decide⟩

/-- C7 amended: `normalizeTemplateGitSource` returns exactly one canonical
string per parsed shape — `https://host/repoPath` for https-URL and
host-only input, `ssh://user@host/repoPath` for ssh-URL input,
`user@host:repoPath` for scp input, the bare `repoPath` for the
unqualified shape, and the (trimmed) original string for the raw shape —
where `repoPath` always ends in `.git` (so the ssh canonical is
`ssh://user@host/owner/repo.git`); concretely, `github.com/acme/tpl` maps
to `https://github.com/acme/tpl.git` and `user@gitlab.com:group/tpl` maps
to `user@gitlab.com:group/tpl.git`. -/
theorem C7_normalize_canonical_by_shape :
    (∀ (s h u rp r : String), parseSource s = .ok (.url h u true rp r) →
        normalizeTemplateGitSource s = .ok ("https://" ++ h ++ "/" ++ rp)) ∧
    (∀ (s h u rp r : String), parseSource s = .ok (.url h u false rp r) →
        normalizeTemplateGitSource s = .ok ("ssh://" ++ u ++ "@" ++ h ++ "/" ++ rp)) ∧
    (∀ (s h u rp r : String), parseSource s = .ok (.scp h u rp r) →
        normalizeTemplateGitSource s = .ok (u ++ "@" ++ h ++ ":" ++ rp)) ∧
    (∀ (s h rp r : String), parseSource s = .ok (.hostOnly h rp r) →
        normalizeTemplateGitSource s = .ok ("https://" ++ h ++ "/" ++ rp)) ∧
    (∀ (s rp r : String), parseSource s = .ok (.repo rp r) →
        normalizeTemplateGitSource s = .ok rp) ∧
    (∀ (s r : String), parseSource s = .ok (.raw r) →
        normalizeTemplateGitSource s = .ok r) ∧
    (∀ (x rp : String), normalizeRepoPath x = .ok rp → strEndsWith rp ".git" = true) ∧
    normalizeTemplateGitSource "github.com/acme/tpl"
      = .ok "https://github.com/acme/tpl.git" ∧
    normalizeTemplateGitSource "user@gitlab.com:group/tpl"
      = .ok "user@gitlab.com:group/tpl.git" := by
  refine ⟨?_, ?_, ?_, ?_, ?_, ?_, normalizeRepoPath_git_suffix, ?_, ?_⟩
  · intro s h u rp r hp
    unfold normalizeTemplateGitSource
    rw [hp]
    rfl
  · intro s h u rp r hp
    unfold normalizeTemplateGitSource
    rw [hp]
    rfl
  · intro s h u rp r hp
    unfold normalizeTemplateGitSource
    rw [hp]
    rfl
  · intro s h rp r hp
    unfold normalizeTemplateGitSource
    rw [hp]
    rfl
  · intro s rp r hp
    unfold normalizeTemplateGitSource
    rw [hp]
    rfl
  · intro s r hp
    unfold normalizeTemplateGitSource
    rw [hp]
    rfl
  · decide
  · decide

/-- Witness for C7: each parsed shape exercised at a concrete address. -/
theorem C7_normalize_canonical_by_shape_witness :
    normalizeTemplateGitSource "https://github.com/acme/tpl"
      = .ok ("https://" ++ "github.com" ++ "/" ++ "acme/tpl.git") ∧
    normalizeTemplateGitSource "ssh://git@github.com/acme/tpl"
      = .ok ("ssh://" ++ "git" ++ "@" ++ "github.com" ++ "/" ++ "acme/tpl.git") ∧
    normalizeTemplateGitSource "user@gitlab.com:group/tpl"
      = .ok ("user" ++ "@" ++ "gitlab.com" ++ ":" ++ "group/tpl.git") ∧
    normalizeTemplateGitSource "github.com/acme/tpl"
      = .ok ("https://" ++ "github.com" ++ "/" ++ "acme/tpl.git") ∧
    normalizeTemplateGitSource "acme/tpl" = .ok "acme/tpl.git" ∧
    normalizeTemplateGitSource "./local/tpl" = .ok "./local/tpl" ∧
    strEndsWith "acme/tpl.git" ".git" = true :=
  ⟨C7_normalize_canonical_by_shape.1 "https://github.com/acme/tpl"
      "github.com" "git" "acme/tpl.git" "https://github.com/acme/tpl" (by decide),
   C7_normalize_canonical_by_shape.2.1 "ssh://git@github.com/acme/tpl"
      "github.com" "git" "acme/tpl.git" "ssh://git@github.com/acme/tpl" (by decide),
   C7_normalize_canonical_by_shape.2.2.1 "user@gitlab.com:group/tpl"
      "gitlab.com" "user" "group/tpl.git" "user@gitlab.com:group/tpl" (by decide),
   C7_normalize_canonical_by_shape.2.2.2.1 "github.com/acme/tpl"
      "github.com" "acme/tpl.git" "github.com/acme/tpl" (by decide),
   C7_normalize_canonical_by_shape.2.2.2.2.1 "acme/tpl"
      "acme/tpl.git" "acme/tpl" (by decide),
   C7_normalize_canonical_by_shape.2.2.2.2.2.1 "./local/tpl" "./local/tpl" (by decide),
   C7_normalize_canonical_by_shape.2.2.2.2.2.2.1 "acme/tpl" "acme/tpl.git" (by decide)⟩

/-- C8 counterexample: the https/ssh-only and no-query/no-fragment
restrictions fire before the recognized-host check — a URL with an
unrecognized host and a non-https/ssh scheme, or a query string, raises a
validation error instead of degrading to the raw shape. -/
theorem C8_counterexample :
    SUPPORTED_GIT_HOSTS.contains (strToLower "example.org") = false ∧
    normalizeTemplateGitSource "ftp://example.org/a/b"
      = .error (cliError "仅支持 HTTPS 或 SSH 仓库地址: ftp://example.org/a/b") ∧
    normalizeTemplateGitSource "https://example.org/a/b?x=1"
      = .error (cliError "仓库地址不能包含 query/hash: https://example.org/a/b?x=1") := by
  refine ⟨by decide, by decide, by decide⟩

/-- C8 amended: the scheme and query/fragment restrictions are fatal for
every address that parses as a URL, regardless of host; only a URL that
passes both checks and has an unrecognized host — and any scp-style or
host-only address with an unrecognized host — degrades to the raw shape,
returning the original string with no error. -/
theorem C8_unrecognized_host_degrades :
    (∀ (s : String) (u : UrlParts),
        jsTrimStr s = s → s ≠ "" → localPathHint s = false → scpMatch s = none →
        parseURL s = some u →
        (strToLower u.scheme ++ ":" = "https:" ∨ strToLower u.scheme ++ ":" = "ssh:") →
        u.search = "" → u.hash = "" →
        SUPPORTED_GIT_HOSTS.contains (strToLower u.hostname) = false →
        normalizeTemplateGitSource s = .ok s) ∧
    (∀ (s user host0 rp : String),
        jsTrimStr s = s → s ≠ "" → localPathHint s = false →
        scpMatch s = some (user, host0, rp) →
        SUPPORTED_GIT_HOSTS.contains (strToLower host0) = false →
        normalizeTemplateGitSource s = .ok s) ∧
    (∀ (s host0 rp : String),
        jsTrimStr s = s → s ≠ "" → localPathHint s = false → scpMatch s = none →
        parseURL s = none → hostOnlyMatch s = some (host0, rp) →
        SUPPORTED_GIT_HOSTS.contains (strToLower host0) = false →
        normalizeTemplateGitSource s = .ok s) ∧
    (∀ (s : String) (u : UrlParts),
        jsTrimStr s = s → s ≠ "" → localPathHint s = false → scpMatch s = none →
        parseURL s = some u →
        ¬(strToLower u.scheme ++ ":" = "https:" ∨ strToLower u.scheme ++ ":" = "ssh:") →
        normalizeTemplateGitSource s
          = .error (cliError ("仅支持 HTTPS 或 SSH 仓库地址: " ++ s))) ∧
    (∀ (s : String) (u : UrlParts),
        jsTrimStr s = s → s ≠ "" → localPathHint s = false → scpMatch s = none →
        parseURL s = some u →
        (strToLower u.scheme ++ ":" = "https:" ∨ strToLower u.scheme ++ ":" = "ssh:") →
        (u.search ≠ "" ∨ u.hash ≠ "") →
        normalizeTemplateGitSource s
          = .error (cliError ("仓库地址不能包含 query/hash: " ++ s))) := by
  refine ⟨?_, ?_, ?_, ?_, ?_⟩
  · intro s u htrim hne hlocal hscp hurl hproto hsearch hhash hhost
    have hcond : ¬(strToLower u.scheme ++ ":" ≠ "https:" ∧ strToLower u.scheme ++ ":" ≠ "ssh:") := by
      rcases hproto with hp | hp <;> simp [hp]
    have hhost2 : strToLower u.hostname ∉ SUPPORTED_GIT_HOSTS := by simpa using hhost
    simp [normalizeTemplateGitSource, parseSource, htrim, hne, hlocal, hscp, hurl,
      hcond, hsearch, hhash, hhost2, Except.map]
  · intro s user host0 rp htrim hne hlocal hscp hhost
    have hhost2 : strToLower host0 ∉ SUPPORTED_GIT_HOSTS := by simpa using hhost
    simp [normalizeTemplateGitSource, parseSource, htrim, hne, hlocal, hscp, hhost2,
      Except.map]
  · intro s host0 rp htrim hne hlocal hscp hurl hhostOnly hhost
    have hhost2 : strToLower host0 ∉ SUPPORTED_GIT_HOSTS := by simpa using hhost
    simp [normalizeTemplateGitSource, parseSource, htrim, hne, hlocal, hscp, hurl,
      hhostOnly, hhost2, Except.map]
  · intro s u htrim hne hlocal hscp hurl hproto
    have hcond : strToLower u.scheme ++ ":" ≠ "https:" ∧ strToLower u.scheme ++ ":" ≠ "ssh:" := by
      constructor <;> (intro hcontr; exact hproto (by simp [hcontr]))
    simp [normalizeTemplateGitSource, parseSource, htrim, hne, hlocal, hscp, hurl, hcond,
      Except.map]
  · intro s u htrim hne hlocal hscp hurl hproto hqh
    have hcond : ¬(strToLower u.scheme ++ ":" ≠ "https:" ∧ strToLower u.scheme ++ ":" ≠ "ssh:") := by
      rcases hproto with hp | hp <;> simp [hp]
    simp [normalizeTemplateGitSource, parseSource, htrim, hne, hlocal, hscp, hurl,
      hcond, hqh, Except.map]

/-- Witness for the amended C8 at concrete addresses with the unrecognized
host `example.org` / `bitbucket.org`. -/
theorem C8_unrecognized_host_degrades_witness :
    normalizeTemplateGitSource "https://example.org/a/b" = .ok "https://example.org/a/b" ∧
    normalizeTemplateGitSource "user@bitbucket.org:x/y" = .ok "user@bitbucket.org:x/y" ∧
    normalizeTemplateGitSource "bitbucket.org/x/y" = .ok "bitbucket.org/x/y" ∧
    normalizeTemplateGitSource "ftp://example.org/a/b"
      = .error (cliError ("仅支持 HTTPS 或 SSH 仓库地址: " ++ "ftp://example.org/a/b")) ∧
    normalizeTemplateGitSource "https://example.org/a/b?x=1"
      = .error (cliError ("仓库地址不能包含 query/hash: " ++ "https://example.org/a/b?x=1")) :=
  ⟨C8_unrecognized_host_degrades.1 "https://example.org/a/b"
      ⟨"https", "", "example.org", "/a/b", "", ""⟩
      (by decide) (by decide) (by decide) (by decide) (by decide) (by decide)
      (by decide) (by decide) (by decide),
   C8_unrecognized_host_degrades.2.1 "user@bitbucket.org:x/y" "user" "bitbucket.org" "x/y"
      (by decide) (by decide) (by decide) (by decide) (by decide),
   C8_unrecognized_host_degrades.2.2.1 "bitbucket.org/x/y" "bitbucket.org" "x/y"
      (by decide) (by decide) (by decide) (by decide) (by decide) (by decide) (by decide),
   C8_unrecognized_host_degrades.2.2.2.1 "ftp://example.org/a/b"
      ⟨"ftp", "", "example.org", "/a/b", "", ""⟩
      (by decide) (by decide) (by decide) (by decide) (by decide) (by decide),
   C8_unrecognized_host_degrades.2.2.2.2 "https://example.org/a/b?x=1"
      ⟨"https", "", "example.org", "/a/b", "?x=1", ""⟩
      (by decide) (by decide) (by decide) (by decide) (by decide) (by decide) (by decide)⟩

/-- C9: candidate lists — the unqualified `owner/repo` shape yields the
cross-product of the three recognized hosts in priority order with https
before the ssh (scp) form per host, six entries in all; the raw shape
yields the single original string. -/
theorem C9_candidates_by_shape :
    (∀ (s rp r : String), parseSource s = .ok (.repo rp r) →
        buildTemplateGitSourceCandidates s = .ok
          ["https://" ++ "github.com" ++ "/" ++ rp, "git" ++ "@" ++ "github.com" ++ ":" ++ rp,
           "https://" ++ "gitlab.com" ++ "/" ++ rp, "git" ++ "@" ++ "gitlab.com" ++ ":" ++ rp,
           "https://" ++ "gitee.com" ++ "/" ++ rp, "git" ++ "@" ++ "gitee.com" ++ ":" ++ rp]) ∧
    (∀ (s r : String), parseSource s = .ok (.raw r) →
        buildTemplateGitSourceCandidates s = .ok [r]) ∧
    buildTemplateGitSourceCandidates "acme/tpl" = .ok
      ["https://github.com/acme/tpl.git", "git@github.com:acme/tpl.git",
       "https://gitlab.com/acme/tpl.git", "git@gitlab.com:acme/tpl.git",
       "https://gitee.com/acme/tpl.git", "git@gitee.com:acme/tpl.git"] := by
  refine ⟨?_, ?_, ?_⟩
  · intro s rp r hp
    unfold buildTemplateGitSourceCandidates
    rw [hp]
    rfl
  · intro s r hp
    unfold buildTemplateGitSourceCandidates
    rw [hp]
    rfl
  · decide

/-- Witness for C9: the unqualified shape at `acme/tpl` and the raw shape
at a local path. -/
theorem C9_candidates_by_shape_witness :
    buildTemplateGitSourceCandidates "acme/tpl" = .ok
      ["https://" ++ "github.com" ++ "/" ++ "acme/tpl.git",
       "git" ++ "@" ++ "github.com" ++ ":" ++ "acme/tpl.git",
       "https://" ++ "gitlab.com" ++ "/" ++ "acme/tpl.git",
       "git" ++ "@" ++ "gitlab.com" ++ ":" ++ "acme/tpl.git",
       "https://" ++ "gitee.com" ++ "/" ++ "acme/tpl.git",
       "git" ++ "@" ++ "gitee.com" ++ ":" ++ "acme/tpl.git"] ∧
    buildTemplateGitSourceCandidates "./local/tpl" = .ok ["./local/tpl"] :=
  ⟨C9_candidates_by_shape.1 "acme/tpl" "acme/tpl.git" "acme/tpl" (by decide),
   C9_candidates_by_shape.2.1 "./local/tpl" "./local/tpl" (by decide)⟩

theorem parseStr1_valid (o : Option JsonV) (s : String) (h : parseStr1 o = some s) :
    1 ≤ s.length := by
  unfold parseStr1 at h
  split at h
  · split at h
    · next hlen => cases h; exact hlen
    · cases h
  · cases h

theorem parsePosInt_valid (o : Option JsonV) (t : Int) (h : parsePosInt o = some t) :
    0 < t := by
  unfold parsePosInt at h
  split at h
  · split at h
    · next hcond => cases h; exact Rat.num_pos.mpr hcond.2
    · cases h
  · cases h

theorem parseTemplateVariable_valid (j : JsonV) (v : TemplateVariable)
    (h : parseTemplateVariable j = some v) : v.validB = true := by
  unfold parseTemplateVariable at h
  split at h
  · split at h
    · rename_i hkey hreq hdv hd
      cases h
      simp [TemplateVariable.validB, parseStr1_valid _ _ hkey]
    · cases h
  · cases h

theorem parseVariableList_valid (items : List JsonV) :
    ∀ vs, parseVariableList items = some vs → vs.all TemplateVariable.validB = true := by
  induction items with
  | nil =>
    intro vs h
    unfold parseVariableList at h
    cases h
    rfl
  | cons j rest ih =>
    intro vs h
    unfold parseVariableList at h
    split at h
    · rename_i hv hrest
      cases h
      simp [List.all_cons, parseTemplateVariable_valid _ _ hv, ih _ hrest]
    · cases h

theorem parseOptVariables_valid (o : Option JsonV) (vv : Option (List TemplateVariable))
    (h : parseOptVariables o = some vv) :
    ∀ vs, vv = some vs → vs.all TemplateVariable.validB = true := by
  unfold parseOptVariables at h
  split at h
  · cases h
    intro vs hvs
    cases hvs
  · rename_i items
    cases hp : parseVariableList items with
    | none => rw [hp] at h; cases h
    | some vs0 =>
      rw [hp] at h
      cases h
      intro vs hvs
      cases hvs
      exact parseVariableList_valid _ _ hp
  · cases h

theorem parseTemplateRecord_valid (j : JsonV) (r : TemplateRecord)
    (h : parseTemplateRecord j = some r) : r.validB = true := by
  unfold parseTemplateRecord at h
  split at h
  · split at h
    · rename_i hid hname hdesc hsrc hbr hsp hvars hca hua
      cases h
      simp only [TemplateRecord.validB, Bool.and_eq_true, decide_eq_true_eq]
      refine ⟨⟨⟨⟨⟨parseStr1_valid _ _ hid, parseStr1_valid _ _ hname⟩,
        parseStr1_valid _ _ hsrc⟩, parseStr1_valid _ _ hca⟩,
        parseStr1_valid _ _ hua⟩, ?_⟩
      split
      · rfl
      · rename_i vs0 hvs0
        exact parseOptVariables_valid _ _ hvars _ rfl
    · cases h
  · cases h

theorem sanitizeTemplateList_all_valid (o : Option JsonV) :
    (sanitizeTemplateList o).all TemplateRecord.validB = true := by
  unfold sanitizeTemplateList
  split
  · rename_i items
    simp only [List.all_eq_true]
    intro r hr
    rcases List.mem_filterMap.mp hr with ⟨j, hj, hjr⟩
    split at hjr
    · cases hjr
    · exact parseTemplateRecord_valid _ _ hjr
  · rfl

theorem parseAiProfile_valid (j : JsonV) (p : AiProfile)
    (h : parseAiProfile j = some p) : p.validB = true := by
  unfold parseAiProfile at h
  split at h
  · split at h
    · rename_i hi hn hb hk hm ht hca hua
      cases h
      simp [AiProfile.validB, parseStr1_valid _ _ hi, parseStr1_valid _ _ hn,
        parseStr1_valid _ _ hb, parseStr1_valid _ _ hk, parseStr1_valid _ _ hm,
        parsePosInt_valid _ _ ht, parseStr1_valid _ _ hca, parseStr1_valid _ _ hua]
    · cases h
  · cases h

theorem parseAiConfig_fields_valid (j : JsonV) (cfg : AiConfig)
    (h : parseAiConfig j = some cfg) :
    1 ≤ cfg.baseURL.length ∧ 1 ≤ cfg.apiKey.length ∧ 1 ≤ cfg.model.length ∧
      0 < cfg.timeoutMs := by
  unfold parseAiConfig at h
  split at h
  · split at h
    · rename_i hb hk hm ht
      cases h
      exact ⟨parseStr1_valid _ _ hb, parseStr1_valid _ _ hk, parseStr1_valid _ _ hm,
        parsePosInt_valid _ _ ht⟩
    · cases h
  · cases h

theorem finishAiSettings_valid (profiles : List AiProfile) (rawActive : Option String) :
    (finishAiSettings profiles rawActive).validB = true := by
  unfold finishAiSettings
  by_cases h : (AiSettings.mk (chooseActive profiles rawActive) profiles).validB = true
  · rw [if_pos h]; exact h
  · rw [if_neg h]; rfl

theorem sanitizeAiSettings_valid (sfx now : String) (hnow : 1 ≤ now.length)
    (input : Option JsonV) : (sanitizeAiSettings sfx now input).validB = true := by
  unfold sanitizeAiSettings
  by_cases htr : jsTruthy input = true
  · rcases input with _ | j
    · rfl
    · simp only [htr, Bool.not_true, Bool.false_eq_true, if_false]
      cases hcfg : parseAiConfig j with
      | some cfg =>
        obtain ⟨hb, hk, hm, ht⟩ := parseAiConfig_fields_valid _ _ hcfg
        have h3 : ("ai_" : String).length = 3 := rfl
        simp [createAiProfile, AiSettings.validB, AiProfile.validB, hb, hk, hm,
          ht, hnow, String.length_append]
        refine ⟨by omega, by decide⟩
      | none =>
        simp only
        by_cases hobj : isObjectType j
        · simp [hobj, finishAiSettings_valid]
        · simp only [hobj, Bool.not_false, if_true]
          decide
  · simp only [Bool.not_eq_true] at htr
    simp only [htr, Bool.not_false, if_true]
    decide

theorem migrateDb_no_fallback (sfx now : String) (hnow : 1 ≤ now.length) (j : JsonV) :
    migrateDb sfx now (some j)
      = ⟨CURRENT_DB_VERSION,
         sanitizeTemplateList ((if isObjectType j then j else .obj []).getField "templates"),
         sanitizeAiSettings sfx now
           ((if isObjectType j then j else .obj []).getField "ai")⟩ := by
  have hvalid : (AppDB.mk CURRENT_DB_VERSION
      (sanitizeTemplateList ((if isObjectType j then j else .obj []).getField "templates"))
      (sanitizeAiSettings sfx now
        ((if isObjectType j then j else .obj []).getField "ai"))).validB = true := by
    simp [AppDB.validB, sanitizeTemplateList_all_valid,
      sanitizeAiSettings_valid sfx now hnow, CURRENT_DB_VERSION]
  cases j with
  | null => rfl
  | bool b => simp only [migrateDb]; rw [if_pos hvalid]
  | num q => simp only [migrateDb]; rw [if_pos hvalid]
  | str s => simp only [migrateDb]; rw [if_pos hvalid]
  | arr items => simp only [migrateDb]; rw [if_pos hvalid]
  | obj fields => simp only [migrateDb]; rw [if_pos hvalid]

/-- The templates component of a migrated document does not depend on the
drawn uuid suffix or timestamp (which only feed the AI-settings branch). -/
theorem migrateDb_templates_indep (sfx now sfx2 now2 : String) (h1 : 1 ≤ now.length)
    (h2 : 1 ≤ now2.length) (raw : Option JsonV) :
    (migrateDb sfx now raw).templates = (migrateDb sfx2 now2 raw).templates := by
  rcases raw with _ | j
  · rfl
  · rw [migrateDb_no_fallback sfx now h1 j, migrateDb_no_fallback sfx2 now2 h2 j]

theorem fsGet_fsRemove_self (fs : FS) (p : String) : fsGet (fsRemove fs p) p = none := by
  induction fs with
  | nil => rfl
  | cons kv rest ih =>
    unfold fsRemove
    by_cases hk : kv.1 = p
    · rw [if_pos hk]
      exact ih
    · rw [if_neg hk]
      have hbeq : (p == kv.1) = false := beq_eq_false_iff_ne.mpr (fun hc => hk hc.symm)
      simp only [fsGet, List.lookup, hbeq] at ih ⊢
      exact ih

theorem fsGet_fsRemove_ne (fs : FS) (p q : String) (h : p ≠ q) :
    fsGet (fsRemove fs q) p = fsGet fs p := by
  induction fs with
  | nil => rfl
  | cons kv rest ih =>
    unfold fsRemove
    by_cases hk : kv.1 = q
    · rw [if_pos hk]
      have hbeq : (p == kv.1) = false := by
        rw [hk]
        exact beq_eq_false_iff_ne.mpr h
      simp only [fsGet, List.lookup, hbeq] at ih ⊢
      exact ih
    · rw [if_neg hk]
      by_cases hkp : (p == kv.1) = true
      · simp only [fsGet, List.lookup, hkp]
      · have hbeq : (p == kv.1) = false := by
          cases hb : (p == kv.1)
          · rfl
          · exact absurd hb hkp
        simp only [fsGet, List.lookup, hbeq] at ih ⊢
        exact ih

theorem fsGet_fsSet_ne (fs : FS) (p q : String) (t : List String) (h : p ≠ q) :
    fsGet (fsSet fs q t) p = fsGet fs p := by
  simp only [fsSet, fsGet, List.lookup, beq_eq_false_iff_ne.mpr h]
  exact fsGet_fsRemove_ne fs p q h

theorem fsGet_fsMove_ne (fs : FS) (src dst p : String) (hs : p ≠ src) (hd : p ≠ dst) :
    fsGet (fsMove fs src dst) p = fsGet fs p := by
  unfold fsMove
  cases h : fsGet fs src with
  | none => rfl
  | some t =>
    rw [fsGet_fsSet_ne _ _ _ _ hd]
    exact fsGet_fsRemove_ne _ _ _ hs

/-- When every candidate's clone fails, the loop raises the aggregate
error listing each candidate with its reason, in order. -/
theorem cloneLoop_allfail (git : String → Except String (List String)) (td : String)
    (freason : String → String) :
    ∀ (cs : List String) (fs : FS) (errs : List String),
      (∀ c ∈ cs, git c = .error (freason c)) →
      (cloneLoop git td cs fs errs).1
        = .error (cliError ("模板仓库同步失败，已尝试:\n" ++
            String.intercalate "\n" (errs ++ cs.map (fun c => c ++ ": " ++ freason c)))) := by
  intro cs
  induction cs with
  | nil =>
    intro fs errs _
    simp [cloneLoop]
  | cons c rest ih =>
    intro fs errs h
    have hc : git c = .error (freason c) := h c (by simp)
    simp only [cloneLoop, hc]
    rw [ih _ _ (fun x hx => h x (by simp [hx]))]
    simp

/-- A successful loop used one of the candidates. -/
theorem cloneLoop_ok_mem (git : String → Except String (List String)) (td : String) :
    ∀ (cs : List String) (fs : FS) (errs : List String) (used : String) (fs1 : FS),
      cloneLoop git td cs fs errs = (.ok used, fs1) → used ∈ cs := by
  intro cs
  induction cs with
  | nil =>
    intro fs errs used fs1 h
    simp [cloneLoop] at h
  | cons c rest ih =>
    intro fs errs used fs1 h
    simp only [cloneLoop] at h
    cases hg : git c with
    | ok t =>
      rw [hg] at h
      cases h
      exact List.mem_cons_self _ _
    | error m =>
      rw [hg] at h
      exact List.mem_cons_of_mem _ (ih _ _ _ _ h)

/-- The loop touches no directory other than its target. -/
theorem cloneLoop_fs_ne (git : String → Except String (List String)) (td p : String)
    (hp : p ≠ td) :
    ∀ (cs : List String) (fs : FS) (errs : List String),
      fsGet ((cloneLoop git td cs fs errs).2) p = fsGet fs p := by
  intro cs
  induction cs with
  | nil => intro fs errs; rfl
  | cons c rest ih =>
    intro fs errs
    simp only [cloneLoop]
    cases hg : git c with
    | ok t =>
      simp only [hg]
      rw [fsGet_fsSet_ne _ _ _ _ hp]
      exact fsGet_fsRemove_ne _ _ _ hp
    | error m =>
      simp only [hg]
      rw [ih]
      exact fsGet_fsRemove_ne _ _ _ hp

/-- A directory is never equal to its own scratch sibling. -/
theorem tempDir_ne (x ts : String) : x ≠ x ++ ".tmp." ++ ts := by
  intro h
  have hlen := congrArg String.length h
  rw [String.length_append, String.length_append] at hlen
  have h5 : (".tmp." : String).length = 5 := rfl
  omega

theorem find?_setSourceFirst (id used nowUpd : String) :
    ∀ (ts : List TemplateRecord) (t : TemplateRecord),
      ts.find? (fun x => x.id == id) = some t →
      (setSourceFirst id used nowUpd ts).find? (fun x => x.id == id)
        = some { t with source := used, updatedAt := nowUpd } := by
  intro ts
  induction ts with
  | nil => intro t h; simp at h
  | cons a rest ih =>
    intro t h
    by_cases ha : (a.id == id) = true
    · rw [@List.find?_cons_of_pos _ (fun x => x.id == id) a rest ha] at h
      cases h
      unfold setSourceFirst
      rw [if_pos ha]
      exact @List.find?_cons_of_pos _ (fun x => x.id == id)
        { a with source := used, updatedAt := nowUpd } rest ha
    · rw [@List.find?_cons_of_neg _ (fun x => x.id == id) a rest ha] at h
      unfold setSourceFirst
      rw [if_neg ha,
        @List.find?_cons_of_neg _ (fun x => x.id == id) a (setSourceFirst id used nowUpd rest) ha]
      exact ih _ h

theorem setSourceFirst_all_valid (id used nowUpd : String) (hu : 1 ≤ used.length)
    (hn : 1 ≤ nowUpd.length) :
    ∀ ts : List TemplateRecord, ts.all TemplateRecord.validB = true →
      (setSourceFirst id used nowUpd ts).all TemplateRecord.validB = true := by
  intro ts
  induction ts with
  | nil => intro _; rfl
  | cons a rest ih =>
    intro h
    rw [List.all_cons, Bool.and_eq_true] at h
    unfold setSourceFirst
    by_cases ha : (a.id == id) = true
    · rw [if_pos ha, List.all_cons, Bool.and_eq_true]
      refine ⟨?_, h.2⟩
      have hav := h.1
      simp only [TemplateRecord.validB, Bool.and_eq_true, decide_eq_true_eq] at hav ⊢
      exact ⟨⟨⟨⟨⟨hav.1.1.1.1.1, hav.1.1.1.1.2⟩, hu⟩, hav.1.1.2⟩, hn⟩, hav.2⟩
    · rw [if_neg ha, List.all_cons, Bool.and_eq_true]
      exact ⟨h.1, ih h.2⟩

theorem length_pos_of_ne_empty (s : String) (h : s ≠ "") : 1 ≤ s.length := by
  obtain ⟨l⟩ := s
  cases l with
  | nil => exact absurd rfl h
  | cons c cs =>
    show 1 ≤ (c :: cs).length
    simp

theorem toHttps_len (h rp : String) : 1 ≤ (toHttpsSource h rp).length := by
  unfold toHttpsSource
  rw [String.length_append, String.length_append, String.length_append]
  have h8 : ("https://" : String).length = 8 := rfl
  omega

theorem toScp_len (h rp u : String) : 1 ≤ (toScpSource h rp u).length := by
  unfold toScpSource
  rw [String.length_append, String.length_append, String.length_append,
    String.length_append]
  have h1 : ("@" : String).length = 1 := rfl
  omega

theorem sshForm_len (u h rp : String) :
    1 ≤ ("ssh://" ++ u ++ "@" ++ h ++ "/" ++ rp).length := by
  rw [String.length_append, String.length_append, String.length_append,
    String.length_append, String.length_append]
  have h6 : ("ssh://" : String).length = 6 := rfl
  omega

/-- A `parseSource` result of the raw shape carries exactly the trimmed,
nonempty input. -/
theorem parseSource_raw_inv (s r : String) (h : parseSource s = .ok (.raw r)) :
    r = jsTrimStr s ∧ jsTrimStr s ≠ "" := by
  simp only [parseSource] at h
  split at h
  · simp at h
  · rename_i hne
    split at h
    · cases h
      exact ⟨rfl, hne⟩
    · split at h
      · -- scp match
        split at h
        · -- recognized host: Except.map over normalizeRepoPath, never raw
          rename_i user0 host00 rp00 heq0 hsupp0
          cases hnr : normalizeRepoPath rp00 with
          | error e => rw [hnr] at h; simp [Except.map] at h
          | ok rp => rw [hnr] at h; simp [Except.map] at h
        · cases h
          exact ⟨rfl, hne⟩
      · split at h
        · -- URL parsed
          split at h
          · simp at h
          · split at h
            · simp at h
            · split at h
              · rename_i u _ _ _ hsupp
                cases hnr : normalizeRepoPath u.pathname with
                | error e => rw [hnr] at h; simp [Except.map] at h
                | ok rp => rw [hnr] at h; simp [Except.map] at h
              · cases h
                exact ⟨rfl, hne⟩
        · split at h
          · -- host-only match
            split at h
            · rename_i host00 rp00 heq0 hsupp0
              cases hnr : normalizeRepoPath rp00 with
              | error e => rw [hnr] at h; simp [Except.map] at h
              | ok rp => rw [hnr] at h; simp [Except.map] at h
            · cases h
              exact ⟨rfl, hne⟩
          · split at h
            · cases hnr : normalizeRepoPath (jsTrimStr s) with
              | error e => rw [hnr] at h; simp [Except.map] at h
              | ok rp => rw [hnr] at h; simp [Except.map] at h
            · cases h
              exact ⟨rfl, hne⟩

/-- Every candidate address the resolver emits is a nonempty string. -/
theorem buildCandidates_ne_empty (src : String) (cs : List String)
    (h : buildTemplateGitSourceCandidates src = .ok cs) :
    ∀ c ∈ cs, 1 ≤ c.length := by
  unfold buildTemplateGitSourceCandidates at h
  cases hp : parseSource src with
  | error e => rw [hp] at h; simp [Except.map] at h
  | ok p =>
    rw [hp] at h
    simp only [Except.map] at h
    cases h
    cases p with
    | url host user protocol repoPath raw =>
      cases protocol with
      | true =>
        intro c hc
        simp only [if_true] at hc
        rcases List.mem_pair.mp hc with h1 | h2
        · subst h1; exact toHttps_len _ _
        · subst h2; exact toScp_len _ _ _
      | false =>
        intro c hc
        simp only [Bool.false_eq_true, if_false] at hc
        rcases List.mem_pair.mp hc with h1 | h2
        · subst h1; exact sshForm_len _ _ _
        · subst h2; exact toHttps_len _ _
    | scp host user repoPath raw =>
      intro c hc
      rcases List.mem_pair.mp hc with h1 | h2
      · subst h1; exact toScp_len _ _ _
      · subst h2; exact toHttps_len _ _
    | hostOnly host repoPath raw =>
      intro c hc
      rcases List.mem_pair.mp hc with h1 | h2
      · subst h1; exact toHttps_len _ _
      · subst h2; exact toScp_len _ _ _
    | repo repoPath raw =>
      intro c hc
      rcases List.mem_flatMap.mp hc with ⟨host, _, hcm⟩
      rcases List.mem_pair.mp hcm with h1 | h2
      · subst h1; exact toHttps_len _ _
      · subst h2; exact toScp_len _ _ _
    | raw r =>
      intro c hc
      rcases List.mem_singleton.mp hc with rfl
      obtain ⟨hr, hne⟩ := parseSource_raw_inv src c (by rw [hp])
      subst hr
      exact length_pos_of_ne_empty _ hne

/-- A failing sync never writes the backing file. -/
theorem syncTemplate_error_disk (git : String → Except String (List String))
    (sfxA nowA sfxB nowB nowUpd ts id : String) (disk : JsonV) (fs : FS) (e : CliError)
    (h : (syncTemplate git sfxA nowA sfxB nowB nowUpd ts id disk fs).result = .error e) :
    (syncTemplate git sfxA nowA sfxB nowB nowUpd ts id disk fs).disk = disk := by
  unfold syncTemplate at h ⊢
  cases hf : (migrateDb sfxA nowA (some disk)).templates.find? (fun t => t.id == id) with
  | none => simp [hf]
  | some template =>
    simp only [hf] at h ⊢
    cases hb : buildTemplateGitSourceCandidates template.source with
    | error e2 => simp [hb]
    | ok cands =>
      simp only [hb] at h ⊢
      cases hcl : cloneGitTemplate git cands (tempDirOf id ts)
          (fsRemove fs (tempDirOf id ts)) with
      | mk res fs1 =>
        simp only [hcl] at h ⊢
        cases res with
        | error e2 => rfl
        | ok used =>
          cases hsp : template.subPath with
          | none =>
            simp only [hsp] at h
            unfold syncPromote at h
            by_cases hus : used ≠ template.source
            · rw [if_pos hus] at h
              simp at h
            · rw [if_neg hus] at h
              simp at h
          | some sp =>
            simp only [hsp] at h ⊢
            by_cases hex : fsSubExists fs1 (tempDirOf id ts) sp = true
            · rw [if_pos hex] at h
              unfold syncPromote at h
              by_cases hus : used ≠ template.source
              · rw [if_pos hus] at h
                simp at h
              · rw [if_neg hus] at h
                simp at h
            · rw [if_neg hex] at h ⊢

/-- C5: when every candidate's transfer fails, the sync raises one fatal
error whose message lists every attempted candidate with that candidate's
failure reason, in order, the scratch directory is removed before the
error propagates (no scratch directory remains), and the backing file is
untouched. -/
theorem C5_sync_all_candidates_fail (git : String → Except String (List String))
    (sfxA nowA sfxB nowB nowUpd ts id : String) (disk : JsonV) (fs : FS)
    (template : TemplateRecord) (cands : List String) (freason : String → String)
    (hfind : (migrateDb sfxA nowA (some disk)).templates.find? (fun t => t.id == id)
        = some template)
    (hbuild : buildTemplateGitSourceCandidates template.source = .ok cands)
    (hfail : ∀ c ∈ cands, git c = .error (freason c)) :
    (syncTemplate git sfxA nowA sfxB nowB nowUpd ts id disk fs).result
        = .error (cliError ("模板仓库同步失败，已尝试:\n" ++
            String.intercalate "\n" (cands.map (fun c => c ++ ": " ++ freason c)))) ∧
    fsGet (syncTemplate git sfxA nowA sfxB nowB nowUpd ts id disk fs).fs
        (tempDirOf id ts) = none ∧
    (syncTemplate git sfxA nowA sfxB nowB nowUpd ts id disk fs).disk = disk := by
  have hloop := cloneLoop_allfail git (tempDirOf id ts) freason cands
      (fsRemove fs (tempDirOf id ts)) [] hfail
  simp only [List.nil_append] at hloop
  unfold syncTemplate
  simp only [hfind, hbuild]
  cases hcl : cloneGitTemplate git cands (tempDirOf id ts)
      (fsRemove fs (tempDirOf id ts)) with
  | mk res fs1 =>
    have hres : res = .error (cliError ("模板仓库同步失败，已尝试:\n" ++
        String.intercalate "\n" (cands.map (fun c => c ++ ": " ++ freason c)))) := by
      have h1 : (cloneGitTemplate git cands (tempDirOf id ts)
          (fsRemove fs (tempDirOf id ts))).1 = res := by rw [hcl]
      rw [← h1]
      exact hloop
    subst hres
    simp only [hcl]
    refine ⟨by trivial, fsGet_fsRemove_self _ _, by trivial⟩

/-- C6: when the transfer succeeds but the declared `subPath` is missing
from the fetched tree, the sync raises the fatal subPath error (no further
candidate is attempted — the loop already stopped at the success), the
previously promoted cache directory is byte-for-byte unchanged, the
scratch directory is removed, and the backing file is untouched. -/
theorem C6_missing_subPath_fatal (git : String → Except String (List String))
    (sfxA nowA sfxB nowB nowUpd ts id sp : String) (disk : JsonV) (fs : FS)
    (template : TemplateRecord) (cands : List String) (used : String) (fs1 : FS)
    (hfind : (migrateDb sfxA nowA (some disk)).templates.find? (fun t => t.id == id)
        = some template)
    (hsp : template.subPath = some sp)
    (hbuild : buildTemplateGitSourceCandidates template.source = .ok cands)
    (hclone : cloneGitTemplate git cands (tempDirOf id ts)
        (fsRemove fs (tempDirOf id ts)) = (.ok used, fs1))
    (hmissing : fsSubExists fs1 (tempDirOf id ts) sp = false) :
    (syncTemplate git sfxA nowA sfxB nowB nowUpd ts id disk fs).result
        = .error (cliError ("模板 subPath 不存在: " ++ sp)) ∧
    fsGet (syncTemplate git sfxA nowA sfxB nowB nowUpd ts id disk fs).fs
        (getTemplateCacheDir id) = fsGet fs (getTemplateCacheDir id) ∧
    fsGet (syncTemplate git sfxA nowA sfxB nowB nowUpd ts id disk fs).fs
        (tempDirOf id ts) = none ∧
    (syncTemplate git sfxA nowA sfxB nowB nowUpd ts id disk fs).disk = disk := by
  have hne : getTemplateCacheDir id ≠ tempDirOf id ts := tempDir_ne _ _
  unfold syncTemplate
  simp only [hfind, hbuild, hclone, hsp, hmissing, Bool.false_eq_true, if_false]
  refine ⟨by trivial, ?_, fsGet_fsRemove_self _ _, by trivial⟩
  rw [fsGet_fsRemove_ne _ _ _ hne]
  have hfs1 : fsGet fs1 (getTemplateCacheDir id)
      = fsGet (fsRemove fs (tempDirOf id ts)) (getTemplateCacheDir id) := by
    have h2 : (cloneGitTemplate git cands (tempDirOf id ts)
        (fsRemove fs (tempDirOf id ts))).2 = fs1 := by rw [hclone]
    rw [← h2]
    exact cloneLoop_fs_ne git (tempDirOf id ts) (getTemplateCacheDir id) hne cands
      (fsRemove fs (tempDirOf id ts)) []
  rw [hfs1]
  exact fsGet_fsRemove_ne _ _ _ hne

/-- C4: a successful sync whose succeeding candidate differs from the
stored source writes exactly that candidate back through the store, so a
subsequent load finds the record with `source` equal to the candidate that
produced the transfer (trivially also when the candidate already equals
the stored source). -/
theorem C4_sync_success_updates_source (git : String → Except String (List String))
    (sfxA nowA sfxB nowB nowUpd ts id sfxC nowC : String) (disk : JsonV) (fs : FS)
    (template : TemplateRecord) (cands : List String) (used : String) (fs1 : FS)
    (hnA : 1 ≤ nowA.length) (hnB : 1 ≤ nowB.length) (hnC : 1 ≤ nowC.length)
    (hnU : 1 ≤ nowUpd.length)
    (hfind : (migrateDb sfxA nowA (some disk)).templates.find? (fun t => t.id == id)
        = some template)
    (hbuild : buildTemplateGitSourceCandidates template.source = .ok cands)
    (hclone : cloneGitTemplate git cands (tempDirOf id ts)
        (fsRemove fs (tempDirOf id ts)) = (.ok used, fs1))
    (hsub : (match template.subPath with
             | some sp => fsSubExists fs1 (tempDirOf id ts) sp
             | none => true) = true) :
    (syncTemplate git sfxA nowA sfxB nowB nowUpd ts id disk fs).result = .ok () ∧
    ∃ rec, (migrateDb sfxC nowC
          (some (syncTemplate git sfxA nowA sfxB nowB nowUpd ts id disk fs).disk)).templates.find?
        (fun t => t.id == id) = some rec ∧ rec.source = used := by
  have hu : 1 ≤ used.length := buildCandidates_ne_empty _ _ hbuild used
      (cloneLoop_ok_mem git (tempDirOf id ts) cands _ [] used fs1 hclone)
  have hsyncEq : syncTemplate git sfxA nowA sfxB nowB nowUpd ts id disk fs
      = syncPromote sfxB nowB nowUpd id used template.source (tempDirOf id ts)
          (getTemplateCacheDir id) disk fs1 := by
    unfold syncTemplate
    simp only [hfind, hbuild, hclone]
    cases hsp : template.subPath with
    | none => simp only
    | some sp =>
      have hsub2 : fsSubExists fs1 (tempDirOf id ts) sp = true := by
        rw [hsp] at hsub
        exact hsub
      simp only [hsub2, if_true]
  rw [hsyncEq]
  simp only [syncPromote]
  by_cases hus : used ≠ template.source
  · rw [if_pos hus]
    refine ⟨rfl, ?_⟩
    have hgood := migrateDb_good sfxB nowB (some disk)
    simp only [AppDB.goodB, Bool.and_eq_true, beq_iff_eq] at hgood
    obtain ⟨⟨hver, hvalid⟩, hactive⟩ := hgood
    have hvB := hvalid
    simp only [AppDB.validB, Bool.and_eq_true] at hvB
    obtain ⟨⟨hv0, htsAll⟩, hai⟩ := hvB
    have hw : (writeDb sfxB nowB (updateSourceMutator id used nowUpd) disk).2
        = (AppDB.mk (migrateDb sfxB nowB (some disk)).version
            (setSourceFirst id used nowUpd (migrateDb sfxB nowB (some disk)).templates)
            (migrateDb sfxB nowB (some disk)).ai).toJson := by
      unfold writeDb updateSourceMutator
      rfl
    rw [hw, migrateDb_toJson_general sfxC nowC _ _ _ hai hactive]
    have hts2 : (setSourceFirst id used nowUpd
        (migrateDb sfxB nowB (some disk)).templates).all TemplateRecord.validB = true :=
      setSourceFirst_all_valid id used nowUpd hu hnU _ htsAll
    have hfilter : (setSourceFirst id used nowUpd
          (migrateDb sfxB nowB (some disk)).templates).filter TemplateRecord.validB
        = setSourceFirst id used nowUpd (migrateDb sfxB nowB (some disk)).templates :=
      List.filter_eq_self.mpr (fun a ha => List.all_eq_true.mp hts2 a ha)
    refine ⟨{ template with source := used, updatedAt := nowUpd }, ?_, rfl⟩
    show ((setSourceFirst id used nowUpd
        (migrateDb sfxB nowB (some disk)).templates).filter TemplateRecord.validB).find?
        (fun t => t.id == id)
      = some { template with source := used, updatedAt := nowUpd }
    rw [hfilter, migrateDb_templates_indep sfxB nowB sfxA nowA hnB hnA (some disk)]
    exact find?_setSourceFirst id used nowUpd _ _ hfind
  · rw [if_neg hus]
    refine ⟨rfl, ?_⟩
    have hused : used = template.source := not_ne_iff.mp hus
    refine ⟨template, ?_, hused.symm⟩
    show (migrateDb sfxC nowC (some disk)).templates.find? (fun t => t.id == id)
        = some template
    rw [migrateDb_templates_indep sfxC nowC sfxA nowA hnC hnA (some disk)]
    exact hfind

/-- C10: when the insert succeeds but the implicit initial sync fails, the
compensating write removes the just-inserted record, so a subsequent load
returns exactly the pre-call templates list. -/
theorem C10_failed_add_restores_templates (git : String → Except String (List String))
    (sfx1 now1 sfxA nowA sfxB nowB nowUpd ts sfx2 now2 sfx3 now3 : String)
    (record : TemplateRecord) (disk : JsonV) (fs : FS) (e : CliError)
    (hid : ((migrateDb sfx1 now1 (some disk)).templates.any
        fun t => t.id == record.id) = false)
    (hname : ((migrateDb sfx1 now1 (some disk)).templates.any
        fun t => t.name == record.name) = false)
    (hsync : (syncTemplate git sfxA nowA sfxB nowB nowUpd ts record.id
        ((writeDb sfx1 now1 (addTemplateMutator record) disk).2) fs).result = .error e) :
    (∃ d1, (writeDb sfx1 now1 (addTemplateMutator record) disk).1 = .ok d1) ∧
    (migrateDb sfx3 now3 (some (writeDb sfx2 now2 (removeTemplateMutator record.id)
        ((syncTemplate git sfxA nowA sfxB nowB nowUpd ts record.id
          ((writeDb sfx1 now1 (addTemplateMutator record) disk).2) fs).disk)).2)).templates
      = (migrateDb sfx1 now1 (some disk)).templates := by
  have hmut : addTemplateMutator record (migrateDb sfx1 now1 (some disk))
      = .ok (AppDB.mk (migrateDb sfx1 now1 (some disk)).version
          ((migrateDb sfx1 now1 (some disk)).templates ++ [record])
          (migrateDb sfx1 now1 (some disk)).ai) := by
    unfold addTemplateMutator
    simp only [hid, hname, Bool.false_eq_true, if_false]
  have hstep1 : writeDb sfx1 now1 (addTemplateMutator record) disk
      = (.ok (AppDB.mk (migrateDb sfx1 now1 (some disk)).version
          ((migrateDb sfx1 now1 (some disk)).templates ++ [record])
          (migrateDb sfx1 now1 (some disk)).ai),
         (AppDB.mk (migrateDb sfx1 now1 (some disk)).version
          ((migrateDb sfx1 now1 (some disk)).templates ++ [record])
          (migrateDb sfx1 now1 (some disk)).ai).toJson) := by
    unfold writeDb
    rw [hmut]
  have hsyncdisk := syncTemplate_error_disk git sfxA nowA sfxB nowB nowUpd ts record.id
      ((writeDb sfx1 now1 (addTemplateMutator record) disk).2) fs e hsync
  have hgood := migrateDb_good sfx1 now1 (some disk)
  simp only [AppDB.goodB, Bool.and_eq_true, beq_iff_eq] at hgood
  obtain ⟨⟨hver, hvalid⟩, hactive⟩ := hgood
  have hvB := hvalid
  simp only [AppDB.validB, Bool.and_eq_true] at hvB
  obtain ⟨⟨hv0, htsAll⟩, hai⟩ := hvB
  have hts0filter : (migrateDb sfx1 now1 (some disk)).templates.filter TemplateRecord.validB
      = (migrateDb sfx1 now1 (some disk)).templates :=
    List.filter_eq_self.mpr (fun a ha => List.all_eq_true.mp htsAll a ha)
  have hall_ne : ∀ t ∈ (migrateDb sfx1 now1 (some disk)).templates,
      (t.id == record.id) = false := by
    intro t ht
    by_cases hc : (t.id == record.id) = true
    · exact absurd (List.any_eq_true.mpr ⟨t, ht, hc⟩) (by rw [hid]; simp)
    · cases hb : (t.id == record.id)
      · rfl
      · exact absurd hb hc
  have hmid : migrateDb sfx2 now2 (some (AppDB.mk (migrateDb sfx1 now1 (some disk)).version
        ((migrateDb sfx1 now1 (some disk)).templates ++ [record])
        (migrateDb sfx1 now1 (some disk)).ai).toJson)
      = AppDB.mk CURRENT_DB_VERSION
          (((migrateDb sfx1 now1 (some disk)).templates ++ [record]).filter
            TemplateRecord.validB)
          (migrateDb sfx1 now1 (some disk)).ai :=
    migrateDb_toJson_general sfx2 now2 _ _ _ hai hactive
  have hremove : removeTemplateMutator record.id (AppDB.mk CURRENT_DB_VERSION
        (((migrateDb sfx1 now1 (some disk)).templates ++ [record]).filter
          TemplateRecord.validB)
        (migrateDb sfx1 now1 (some disk)).ai)
      = .ok (AppDB.mk CURRENT_DB_VERSION (migrateDb sfx1 now1 (some disk)).templates
          (migrateDb sfx1 now1 (some disk)).ai) := by
    unfold removeTemplateMutator
    have hlist : (((migrateDb sfx1 now1 (some disk)).templates ++ [record]).filter
          TemplateRecord.validB).filter (fun t => !(t.id == record.id))
        = (migrateDb sfx1 now1 (some disk)).templates := by
      rw [List.filter_append, hts0filter, List.filter_append]
      have hrec : ([record].filter TemplateRecord.validB).filter
          (fun t => !(t.id == record.id)) = [] := by
        by_cases hv : record.validB = true
        · simp [List.filter_cons, hv]
        · simp [List.filter_cons, hv]
      rw [hrec, List.append_nil]
      exact List.filter_eq_self.mpr (fun a ha => by
        rw [hall_ne a ha]
        rfl)
    rw [hlist]
  constructor
  · exact ⟨_, by rw [hstep1]⟩
  · rw [hsyncdisk]
    have hdisk1 : (writeDb sfx1 now1 (addTemplateMutator record) disk).2
        = (AppDB.mk (migrateDb sfx1 now1 (some disk)).version
            ((migrateDb sfx1 now1 (some disk)).templates ++ [record])
            (migrateDb sfx1 now1 (some disk)).ai).toJson := by
      rw [hstep1]
    rw [hdisk1]
    have hstep2 : writeDb sfx2 now2 (removeTemplateMutator record.id)
          ((AppDB.mk (migrateDb sfx1 now1 (some disk)).version
            ((migrateDb sfx1 now1 (some disk)).templates ++ [record])
            (migrateDb sfx1 now1 (some disk)).ai).toJson)
        = (.ok (AppDB.mk CURRENT_DB_VERSION (migrateDb sfx1 now1 (some disk)).templates
              (migrateDb sfx1 now1 (some disk)).ai),
           (AppDB.mk CURRENT_DB_VERSION (migrateDb sfx1 now1 (some disk)).templates
              (migrateDb sfx1 now1 (some disk)).ai).toJson) := by
      unfold writeDb
      rw [hmid, hremove]
    rw [hstep2, migrateDb_toJson_general sfx3 now3 _ _ _ hai hactive]
    exact hts0filter

/-- Witness for C4: syncing `wRec` succeeds via the github candidate and
the stored source afterwards equals that exact candidate. -/
theorem C4_sync_success_updates_source_witness :
    (syncTemplate wGitOk "s" "t" "s2" "t2" "tu" "9" "tpl_1" wDisk []).result = .ok () ∧
    ∃ rec, (migrateDb "s3" "t3"
          (some (syncTemplate wGitOk "s" "t" "s2" "t2" "tu" "9" "tpl_1" wDisk []).disk)).templates.find?
        (fun t => t.id == "tpl_1") = some rec ∧
      rec.source = "https://github.com/acme/tpl.git" :=
  C4_sync_success_updates_source wGitOk "s" "t" "s2" "t2" "tu" "9" "tpl_1" "s3" "t3"
    wDisk [] wRec wCands "https://github.com/acme/tpl.git"
    [(tempDirOf "tpl_1" "9", ["x"])]
    (by decide) (by decide) (by decide) (by decide) (by decide) (by decide)
    (by decide) (by decide)

/-- Witness for C5: every candidate for `wRec` fails with reason `boom`. -/
theorem C5_sync_all_candidates_fail_witness :
    (syncTemplate wGitFail "s" "t" "s2" "t2" "tu" "9" "tpl_1" wDisk []).result
        = .error (cliError ("模板仓库同步失败，已尝试:\n" ++
            String.intercalate "\n" (wCands.map (fun c => c ++ ": " ++ "boom")))) ∧
    fsGet (syncTemplate wGitFail "s" "t" "s2" "t2" "tu" "9" "tpl_1" wDisk []).fs
        (tempDirOf "tpl_1" "9") = none ∧
    (syncTemplate wGitFail "s" "t" "s2" "t2" "tu" "9" "tpl_1" wDisk []).disk = wDisk :=
  C5_sync_all_candidates_fail wGitFail "s" "t" "s2" "t2" "tu" "9" "tpl_1" wDisk []
    wRec wCands (fun _ => "boom") (by decide) (by decide) (fun c _ => rfl)

/-- Witness for C6: the clone of `wRecSub` succeeds with a tree missing the
declared `sub` directory. -/
theorem C6_missing_subPath_fatal_witness :
    (syncTemplate wGitEmpty "s" "t" "s2" "t2" "tu" "9" "tpl_1" wDiskSub []).result
        = .error (cliError ("模板 subPath 不存在: " ++ "sub")) ∧
    fsGet (syncTemplate wGitEmpty "s" "t" "s2" "t2" "tu" "9" "tpl_1" wDiskSub []).fs
        (getTemplateCacheDir "tpl_1") = fsGet ([] : FS) (getTemplateCacheDir "tpl_1") ∧
    fsGet (syncTemplate wGitEmpty "s" "t" "s2" "t2" "tu" "9" "tpl_1" wDiskSub []).fs
        (tempDirOf "tpl_1" "9") = none ∧
    (syncTemplate wGitEmpty "s" "t" "s2" "t2" "tu" "9" "tpl_1" wDiskSub []).disk = wDiskSub :=
  C6_missing_subPath_fatal wGitEmpty "s" "t" "s2" "t2" "tu" "9" "tpl_1" "sub"
    wDiskSub [] wRecSub ["./local"] "./local" [(tempDirOf "tpl_1" "9", [])]
    (by decide) (by decide) (by decide) (by decide) (by decide)

/-- Witness for C10: adding `wRecNew` inserts it, the sync fails, and the
compensating write restores the original templates list. -/
theorem C10_failed_add_restores_templates_witness :
    (∃ d1, (writeDb "s1" "t1" (addTemplateMutator wRecNew) wDisk).1 = .ok d1) ∧
    (migrateDb "s3" "t3" (some (writeDb "s2" "t2" (removeTemplateMutator wRecNew.id)
        ((syncTemplate wGitFail "s" "t" "sb" "tb" "tu" "9" wRecNew.id
          ((writeDb "s1" "t1" (addTemplateMutator wRecNew) wDisk).2) []).disk)).2)).templates
      = (migrateDb "s1" "t1" (some wDisk)).templates :=
  C10_failed_add_restores_templates wGitFail "s1" "t1" "s" "t" "sb" "tb" "tu" "9"
    "s2" "t2" "s3" "t3" wRecNew wDisk []
    (cliError ("模板仓库同步失败，已尝试:\n" ++ "./missing: boom"))
    (by decide) (by decide) (by decide)
